import Mathlib

/-!
Verification of the panel-construction pipeline of the msc-thesis repository.

The Python sources under `code/` are shallowly embedded as executable Lean
functions over exact rationals:

* a numeric cell is a `Val`: `na` for NaN/missing, `ninf` for `-inf`,
  `num q` for a finite value.  `+inf` is unreachable from the modelled
  sources (no arithmetic producing it occurs in the pipeline) and is not
  represented; IEEE subtraction involving infinities is likewise never
  exercised by the pipeline (institution values are `na` or finite), so
  `Val.sub` propagates `na` for non-finite arguments.
* `np.log` is modelled by `npLog lnQ` where the parameter `lnQ : ℚ → ℚ`
  stands for the real logarithm on positive arguments.  Every property
  proved below depends only on where the logarithm is defined
  (`log 0 = -inf`, `log x = NaN` for `x < 0`, finite on positives), not on
  its numeric values, so the theorems are stated for an arbitrary `lnQ`
  and concrete evaluations instantiate `lnQ := idQ`.
* a pandas data frame is a list of structures; `groupby(keys).shift(1)`
  is the positional per-group shift `groupShift` (pandas shifts by row
  position within each group, in frame order); `merge(..., how="inner")`
  and `merge(..., how="left")` are `joinKlems` and `joinGdp`/`joinUne`/
  `joinIct`; `drop_duplicates` is `dedupeBy` (keeps first occurrence);
  `dropna(subset=...)` is a `filter` on the cells being non-`na`
  (note a `-inf` cell is not NaN and is not dropped by `dropna`).
-/

/-- Numeric cell of a data frame: missing/NaN, negative infinity, or a
finite rational. -/
inductive Val where
  | na : Val
  | ninf : Val
  | num : ℚ → Val
  deriving DecidableEq, Repr

namespace Val

/-- Cell is not NaN/missing (pandas `notna`; `-inf` counts as present). -/
def notna : Val → Bool
  | .na => false
  | _ => true

/-- Cell is a finite number (neither missing nor `-inf`). -/
def isNum : Val → Bool
  | .num _ => true
  | _ => false

/-- Extract the finite value, if any. -/
def toNum? : Val → Option ℚ
  | .num q => some q
  | _ => none

/-- Subtraction of cells.  In the pipeline this is only applied to
institution columns, whose cells are `na` or finite, so the non-finite
cases simply propagate `na`. -/
def sub : Val → Val → Val
  | .num a, .num b => .num (a - b)
  | _, _ => .na

end Val

/-- Model of `np.log`: NaN propagates, `log` of a negative number (and of
`-inf`) is NaN, `log 0 = -inf`, and on positives the abstract logarithm
`lnQ` applies. -/
def npLog (lnQ : ℚ → ℚ) : Val → Val
  | .na => .na
  | .ninf => .na
  | .num v => if v < 0 then .na else if v = 0 then .ninf else .num (lnQ v)

/-- Model of `Series.clip(lower=c)`: NaN propagates, anything below `c`
(including `-inf`) is raised to `c`. -/
def clipLower (c : ℚ) : Val → Val
  | .na => .na
  | .ninf => .num c
  | .num v => .num (max v c)

/-- Model of `Series.replace(0, np.nan)`: exact zeros become NaN. -/
def replaceZeroNa : Val → Val
  | .num v => if v = 0 then .na else .num v
  | v => v

/-- Robot-stock log of `2-cleaning-data.py` line 82:
`np.log(robot_wrkr_stock_95.replace(0, np.nan))` — zero is mapped to NaN
before the log, and there is no floor-clip. -/
def lnRobots (lnQ : ℚ → ℚ) (v : Val) : Val := npLog lnQ (replaceZeroNa v)

/-- Floor-clipped log of `2-cleaning-data.py` lines 155-158:
`np.log(x.clip(lower=0.1))`. -/
def lnClip (lnQ : ℚ → ℚ) (v : Val) : Val := npLog lnQ (clipLower (1/10) v)

/-- Line 165: `np.where(coord.notna(), (coord >= 4).astype(int), np.nan)`.
A `-inf` cell is not NaN, and `-inf >= 4` is false, hence `num 0`. -/
def highCoord : Val → Val
  | .na => .na
  | .ninf => .num 0
  | .num q => .num (if 4 ≤ q then 1 else 0)

/-- pandas `Series.mean()`: mean over the non-missing cells, NaN when all
cells are missing.  (The adjcov column it is applied to contains only
`na`/finite cells.) -/
def meanVal (vs : List Val) : Val :=
  let xs := vs.filterMap Val.toNum?
  if xs.length = 0 then .na else .num (xs.sum / (xs.length : ℚ))

/-- Concrete instantiation of the abstract logarithm parameter, used for
evaluating fixtures (the properties checked never depend on the numeric
values of the logarithm). -/
def idQ : ℚ → ℚ := fun q => q

/-- Value of the most recent element of `past` (ordered most recent
first) whose key is `k`, or `na` when there is none. -/
def lastVal {α κ : Type} [DecidableEq κ] (key : α → κ) (val : α → Val)
    (past : List α) (k : κ) : Val :=
  match past.find? (fun s => decide (key s = k)) with
  | some s => val s
  | none => .na

/-- Worker for `groupShift`: `prev` holds the rows already passed, most
recent first. -/
def groupShiftGo {α κ : Type} [DecidableEq κ] (key : α → κ) (val : α → Val)
    (prev : List α) : List α → List (α × Val)
  | [] => []
  | r :: rs => (r, lastVal key val prev (key r)) :: groupShiftGo key val (r :: prev) rs

/-- Model of pandas `df.groupby(keys)[col].shift(1)`: each row is paired
with the value of the previous row of the same group, in frame order
(`na` for the first row of each group).  The shift is positional within
the group: it does not look at the year column. -/
def groupShift {α κ : Type} [DecidableEq κ] (key : α → κ) (val : α → Val)
    (rows : List α) : List (α × Val) :=
  groupShiftGo key val [] rows

/-- Worker for `dedupeBy`. -/
def dedupeByGo {α κ : Type} [DecidableEq κ] (key : α → κ) (seen : List κ) :
    List α → List α
  | [] => []
  | r :: rs =>
    if key r ∈ seen then dedupeByGo key seen rs
    else r :: dedupeByGo key (key r :: seen) rs

/-- Model of pandas `drop_duplicates(subset=keys)`: keep the first row of
each key. -/
def dedupeBy {α κ : Type} [DecidableEq κ] (key : α → κ) (rows : List α) : List α :=
  dedupeByGo key [] rows

/-- Association-list lookup by key equality (model of a Python dict
lookup; the mapping tables below have pairwise distinct keys). -/
def alookup {β : Type} (l : List (String × β)) (k : String) : Option β :=
  (l.find? (fun p => decide (p.1 = k))).map (fun p => p.2)

/-- `EU_ISO2` of `2-cleaning-data.py` line 21 (note it contains both `EL`
and `GR`). -/
def euIso2 : List String :=
  ["AT", "BE", "BG", "CY", "CZ", "DE", "DK", "EE", "EL", "ES", "FI", "FR",
   "GR", "HR", "HU", "IE", "IT", "LT", "LU", "LV", "MT", "NL", "PL", "PT",
   "RO", "SE", "SI", "SK", "UK"]

/-- `IFR_TO_NACE` of `2-cleaning-data.py` lines 24-49. -/
def ifrToNace : List (String × String) :=
  [("10-12", "C10-C12"), ("13-15", "C13-C15"), ("16", "C16-C18"),
   ("17-18", "C16-C18"), ("19", "C19"), ("19-22", "C20-C21"),
   ("20", "C20-C21"), ("20-21", "C20-C21"), ("20-23", "C20-C21"),
   ("21", "C21"), ("22", "C22-C23"), ("23", "C22-C23"), ("24", "C24-C25"),
   ("24-25", "C24-C25"), ("25", "C24-C25"), ("26", "C26-C27"),
   ("26-27", "C26-C27"), ("27", "C26-C27"), ("28", "C28"),
   ("29", "C29-C30"), ("29-30", "C29-C30"), ("30", "C29-C30"),
   ("D", "C"), ("D_other", "C31-C33")]

/-- `EUROSTAT_GEO_TO_ISO2` of `2-cleaning-data.py` lines 51-58. -/
def eurostatGeoToIso2 : List (String × String) :=
  [("Austria", "AT"), ("Belgium", "BE"), ("Bulgaria", "BG"),
   ("Croatia", "HR"), ("Cyprus", "CY"), ("Czechia", "CZ"),
   ("Czech Republic", "CZ"), ("Denmark", "DK"), ("Estonia", "EE"),
   ("Finland", "FI"), ("France", "FR"), ("Germany", "DE"),
   ("Greece", "EL"), ("Hungary", "HU"), ("Ireland", "IE"),
   ("Italy", "IT"), ("Latvia", "LV"), ("Lithuania", "LT"),
   ("Luxembourg", "LU"), ("Malta", "MT"), ("Netherlands", "NL"),
   ("Poland", "PL"), ("Portugal", "PT"), ("Romania", "RO"),
   ("Slovakia", "SK"), ("Slovenia", "SI"), ("Spain", "ES"),
   ("Sweden", "SE"), ("United Kingdom", "UK")]

/-- `ISO3_TO_ISO2` of `2-cleaning-data.py` lines 59-65. -/
def iso3ToIso2 : List (String × String) :=
  [("AUT", "AT"), ("BEL", "BE"), ("BGR", "BG"), ("HRV", "HR"),
   ("CYP", "CY"), ("CZE", "CZ"), ("DNK", "DK"), ("EST", "EE"),
   ("FIN", "FI"), ("FRA", "FR"), ("DEU", "DE"), ("GRC", "EL"),
   ("HUN", "HU"), ("IRL", "IE"), ("ITA", "IT"), ("LVA", "LV"),
   ("LTU", "LT"), ("LUX", "LU"), ("MLT", "MT"), ("NLD", "NL"),
   ("POL", "PL"), ("PRT", "PT"), ("ROU", "RO"), ("SVK", "SK"),
   ("SVN", "SI"), ("ESP", "ES"), ("SWE", "SE"), ("GBR", "UK")]

/-- `high_robot_nace` of `2-cleaning-data.py` line 168. -/
def highRobotNace : List String := ["C26-C27", "C28", "C29-C30"]

/-- Raw IFR row (`IFR_karol.csv`): the columns used by the cleaning
script. -/
structure IfrRow where
  country : String
  industry : String
  year : Int
  stock : Val
  deriving DecidableEq, Repr

/-- Entity key of the IFR group-by: (`country_code`, `industry_code`). -/
abbrev ifrKey (r : IfrRow) : String × String := (r.country, r.industry)

/-- The rows of each entity appear in strictly increasing year order (in
particular, no duplicate entity-year).  This is the realistic shape of
the IFR input and is the hypothesis under which year-based statements
about the positional `shift(1)` make sense. -/
abbrev yearSorted (rows : List IfrRow) : Prop :=
  rows.Pairwise (fun a b => ifrKey a = ifrKey b → a.year < b.year)

/-- IFR row after line 82 (`ln_robots` added). -/
structure IfrRowL where
  country : String
  industry : String
  year : Int
  stock : Val
  ln_robots : Val
  deriving DecidableEq, Repr

/-- Entity key on `IfrRowL`. -/
abbrev lKey (r : IfrRowL) : String × String := (r.country, r.industry)

/-- IFR row after line 83 (`ln_robots_lag1` added). -/
structure IfrRowLag where
  country : String
  industry : String
  year : Int
  stock : Val
  ln_robots : Val
  ln_robots_lag1 : Val
  deriving DecidableEq, Repr

/-- Lines 79-81 of `2-cleaning-data.py`: restrict to EU countries, to
industries with a crosswalk entry, and to years 1993-2019. -/
def ifrFiltered (rows : List IfrRow) : List IfrRow :=
  ((rows.filter (fun r => euIso2.contains r.country)).filter
      (fun r => (alookup ifrToNace r.industry).isSome)).filter
    (fun r => decide (1993 ≤ r.year) && decide (r.year ≤ 2019))

/-- Line 82: `ln_robots = np.log(robot_wrkr_stock_95.replace(0, nan))`. -/
def ifrWithLn (lnQ : ℚ → ℚ) (rows : List IfrRow) : List IfrRowL :=
  (ifrFiltered rows).map
    (fun r => ⟨r.country, r.industry, r.year, r.stock, lnRobots lnQ r.stock⟩)

/-- Assemble an `IfrRowLag` from a shifted pair. -/
def mkLagRow (p : IfrRowL × Val) : IfrRowLag :=
  ⟨p.1.country, p.1.industry, p.1.year, p.1.stock, p.1.ln_robots, p.2⟩

/-- Line 83: `ln_robots_lag1 = groupby([country, industry])[ln_robots].shift(1)`. -/
def ifrLagged (lnQ : ℚ → ℚ) (rows : List IfrRow) : List IfrRowLag :=
  (groupShift lKey (fun r => r.ln_robots) (ifrWithLn lnQ rows)).map mkLagRow

/-- Line 84: keep years >= 1995 (the lag was computed before this filter,
so 1993/1994 observations feed the lags of 1994/1995). -/
def ifrPanel (lnQ : ℚ → ℚ) (rows : List IfrRow) : List IfrRowLag :=
  (ifrLagged lnQ rows).filter (fun r => decide (1995 ≤ r.year))

/-- Wide KLEMS row (`klems_wide` after the pivot on `var`, lines 93-100).
The pivot itself is upstream of every claim, so `joinKlems` takes the
pivoted table as input. -/
structure KlemsRow where
  country : String
  nace : String
  year : Int
  LAB_QI : Val
  VA_PYP : Val
  CAP_QI : Val
  CAPICT_QI : Val
  CAPNICT_QI : Val
  deriving DecidableEq, Repr

/-- Country-year GDP row (output of lines 118-128). -/
structure GdpRow where
  country : String
  year : Int
  gdp : Val
  deriving DecidableEq, Repr

/-- Country-year unemployment row (output of lines 130-137). -/
structure UneRow where
  country : String
  year : Int
  unemployment : Val
  deriving DecidableEq, Repr

/-- Country institutional baseline row (`ictwss_baseline`, output of
lines 102-116). -/
structure IctRow where
  country : String
  AdjCov : Val
  Coord : Val
  deriving DecidableEq, Repr

/-- Row of the merged frame `df` after lines 142-152. -/
structure MRow where
  country : String
  industry : String
  nace : String
  year : Int
  stock : Val
  ln_robots : Val
  ln_robots_lag1 : Val
  LAB_QI : Val
  VA_PYP : Val
  CAP_QI : Val
  CAPICT_QI : Val
  CAPNICT_QI : Val
  gdp : Val
  unemployment : Val
  AdjCov : Val
  Coord : Val
  deriving DecidableEq, Repr

/-- Lines 140-141: map the IFR industry code through `IFR_TO_NACE` and
drop rows with no crosswalk entry. -/
def ifrNace (lnQ : ℚ → ℚ) (rows : List IfrRow) : List (IfrRowLag × String) :=
  (ifrPanel lnQ rows).filterMap
    (fun a => (alookup ifrToNace a.industry).map (fun n => (a, n)))

/-- Lines 142-147: inner merge of the IFR frame with the wide KLEMS frame
on (`country_code`, `nace_r2_code`, `year`).  Country-level columns are
initialised to `na`; the subsequent left joins fill them. -/
def joinKlems (ifrn : List (IfrRowLag × String)) (klems : List KlemsRow) : List MRow :=
  ifrn.flatMap (fun p =>
    (klems.filter (fun k =>
        decide (k.country = p.1.country) && decide (k.nace = p.2) &&
        decide (k.year = p.1.year))).map
      (fun k =>
        { country := p.1.country, industry := p.1.industry, nace := p.2,
          year := p.1.year, stock := p.1.stock, ln_robots := p.1.ln_robots,
          ln_robots_lag1 := p.1.ln_robots_lag1,
          LAB_QI := k.LAB_QI, VA_PYP := k.VA_PYP, CAP_QI := k.CAP_QI,
          CAPICT_QI := k.CAPICT_QI, CAPNICT_QI := k.CAPNICT_QI,
          gdp := .na, unemployment := .na, AdjCov := .na, Coord := .na }))

/-- Left-join contribution of one left row against the GDP table: no
match keeps the row with a missing cell, matches duplicate the row
(pandas left-merge semantics). -/
def joinGdpRow (gdp : List GdpRow) (r : MRow) : List MRow :=
  match gdp.filter (fun g => decide (g.country = r.country) && decide (g.year = r.year)) with
  | [] => [r]
  | ms => ms.map (fun g => { r with gdp := g.gdp })

/-- Line 150: `df.merge(gdp, on=[country, year], how="left")`. -/
def joinGdp (df : List MRow) (gdp : List GdpRow) : List MRow :=
  df.flatMap (joinGdpRow gdp)

/-- Left-join contribution of one left row against the unemployment
table. -/
def joinUneRow (une : List UneRow) (r : MRow) : List MRow :=
  match une.filter (fun u => decide (u.country = r.country) && decide (u.year = r.year)) with
  | [] => [r]
  | ms => ms.map (fun u => { r with unemployment := u.unemployment })

/-- Line 151: `df.merge(une, on=[country, year], how="left")`. -/
def joinUne (df : List MRow) (une : List UneRow) : List MRow :=
  df.flatMap (joinUneRow une)

/-- Left-join contribution of one left row against the institutional
baseline table (keyed by country only). -/
def joinIctRow (ict : List IctRow) (r : MRow) : List MRow :=
  match ict.filter (fun i => decide (i.country = r.country)) with
  | [] => [r]
  | ms => ms.map (fun i => { r with AdjCov := i.AdjCov, Coord := i.Coord })

/-- Line 152: `df.merge(ictwss_baseline, on=country, how="left")`. -/
def joinIct (df : List MRow) (ict : List IctRow) : List MRow :=
  df.flatMap (joinIctRow ict)

/-- Lines 139-152: the full merge sequence. -/
def dfMerged (lnQ : ℚ → ℚ) (ifr : List IfrRow) (klems : List KlemsRow)
    (gdp : List GdpRow) (une : List UneRow) (ict : List IctRow) : List MRow :=
  joinIct (joinUne (joinGdp (joinKlems (ifrNace lnQ ifr) klems) gdp) une) ict

/-- Row of the cleaned panel with all derived variables
(lines 155-169). -/
structure PanelRow extends MRow where
  ln_hours : Val
  ln_va : Val
  ln_cap : Val
  ln_gdp : Val
  adjcov : Val
  coord : Val
  adjcov_centered : Val
  high_coord : Val
  high_robot_industry : Int
  deriving DecidableEq, Repr

/-- Lines 155-160: floor-clipped logs and the numeric institution
columns (`pd.to_numeric(..., errors="coerce")` is the identity on cells
already numeric-or-missing). -/
def deriveStage1 (lnQ : ℚ → ℚ) (m : MRow) : PanelRow :=
  { toMRow := m,
    ln_hours := lnClip lnQ m.LAB_QI, ln_va := lnClip lnQ m.VA_PYP,
    ln_cap := lnClip lnQ m.CAP_QI, ln_gdp := lnClip lnQ m.gdp,
    adjcov := m.AdjCov, coord := m.Coord,
    adjcov_centered := .na, high_coord := .na, high_robot_industry := 0 }

/-- Lines 163-169: centering against the panel-level mean, the
coordination indicator and the static high-robot-industry flag. -/
def deriveStage2 (adjMean : Val) (r : PanelRow) : PanelRow :=
  { r with adjcov_centered := Val.sub r.adjcov adjMean,
           high_coord := highCoord r.coord,
           high_robot_industry := if highRobotNace.contains r.nace then 1 else 0 }

/-- Line 163: the centering constant `adj_mean` is the mean of the
`adjcov` column of the whole merged frame, computed before the
required-variable `dropna` of lines 171-173. -/
def adjMeanOf (lnQ : ℚ → ℚ) (df : List MRow) : Val :=
  meanVal ((df.map (deriveStage1 lnQ)).map (fun r => r.adjcov))

/-- Lines 155-169: derived variables. -/
def deriveVars (lnQ : ℚ → ℚ) (df : List MRow) : List PanelRow :=
  (df.map (deriveStage1 lnQ)).map (deriveStage2 (adjMeanOf lnQ df))

/-- The assembled panel with derived variables, before the
required-variable `dropna` (state of `df` just after line 169). -/
def assembleDerived (lnQ : ℚ → ℚ) (ifr : List IfrRow) (klems : List KlemsRow)
    (gdp : List GdpRow) (une : List UneRow) (ict : List IctRow) : List PanelRow :=
  deriveVars lnQ (dfMerged lnQ ifr klems gdp une ict)

/-- Line 172: the required columns of the final `dropna`. -/
def requiredNotna (r : PanelRow) : Bool :=
  r.ln_hours.notna && r.ln_robots_lag1.notna && r.ln_va.notna && r.ln_cap.notna

/-- Lines 171-173: the cleaned output panel
(`cleaned_data.csv` content; the later column selection and the
`entity`/`year_int` additions do not change these rows). -/
def assemble (lnQ : ℚ → ℚ) (ifr : List IfrRow) (klems : List KlemsRow)
    (gdp : List GdpRow) (une : List UneRow) (ict : List IctRow) : List PanelRow :=
  (assembleDerived lnQ ifr klems gdp une ict).filter requiredNotna

/-- Line 176: `entity = country_code + "_" + industry_code`. -/
def entityOf (r : PanelRow) : String := r.country ++ "_" ++ r.industry

/-- Required columns of `prepare_panel` as called by `step_model` of
`7-equation5-industry-heterogeneity-coverage.py` (line 57; the
`nace_r2_code` entry is a string column and never NaN here). -/
def eq5Req (r : PanelRow) : Bool :=
  r.ln_hours.notna && r.ln_robots_lag1.notna && r.ln_va.notna &&
  r.ln_cap.notna && r.adjcov.notna

/-- Lines 54 and 59-61 of the equation-5 script: `get_controls` always
returns `ln_va`/`ln_cap` and adds `ln_gdp`/`unemployment` when the raw
frame has any non-missing value in that column; the loop then drops rows
missing a control. -/
def controlsDrop (full df : List PanelRow) : List PanelRow :=
  let d1 := (df.filter (fun r => r.ln_va.notna)).filter (fun r => r.ln_cap.notna)
  let d2 := if full.any (fun r => r.ln_gdp.notna)
            then d1.filter (fun r => r.ln_gdp.notna) else d1
  if full.any (fun r => r.unemployment.notna)
  then d2.filter (fun r => r.unemployment.notna) else d2

/-- Lines 57-67 of the equation-5 script: `prepare_panel` (dropna on the
required columns, dedupe on (entity, year)), the control drops, a second
dedupe, and the `adjcov_centered` notna filter.  `set_index`/`sort_index`
only reorder rows and are omitted; the fallback recomputation of
`adjcov_centered` never fires because the cleaning script always writes
that column. -/
def eq5Prepared (full : List PanelRow) : List PanelRow :=
  let df := dedupeBy (fun r => (entityOf r, r.year)) (full.filter eq5Req)
  let df2 := dedupeBy (fun r => (entityOf r, r.year)) (controlsDrop full df)
  df2.filter (fun r => r.adjcov_centered.notna)

/-- Line 80: the candidate subgroup of one industry. -/
def eq5Industry (full : List PanelRow) (ind : String) : List PanelRow :=
  (eq5Prepared full).filter (fun r => decide (r.nace = ind))

/-- `MIN_COUNTRIES` of the equation-5 script, line 37. -/
def MIN_COUNTRIES : Nat := 5

/-- `MIN_OBS` of the equation-5 script, line 38. -/
def MIN_OBS : Nat := 50

/-- Line 82: `df_ind["country_code"].nunique()`. -/
def nCountries (rows : List PanelRow) : Nat :=
  ((rows.map (fun r => r.country)).dedup).length

/-- The non-missing values of the `adjcov_centered` column (pandas `std`
skips NaN). -/
def adjcovCVals (rows : List PanelRow) : List ℚ :=
  rows.filterMap (fun r => r.adjcov_centered.toNum?)

/-- Sample variance with `ddof=1` (pandas default), as an exact
rational.  Guarded by a length check wherever the pandas `std` would be
NaN (fewer than two values). -/
def sampleVar (xs : List ℚ) : ℚ :=
  ((xs.map (fun x => (x - xs.sum / (xs.length : ℚ))^2)).sum) / ((xs.length : ℚ) - 1)

/-- Exact model of the line-96 comparison `std() < 1e-10`: for at least
two values, `sqrt v < 1e-10` iff `v < 1e-20` (both sides nonnegative);
for fewer than two values pandas `std` is NaN and `NaN < 1e-10` is
false. -/
def stdLtEps (xs : List ℚ) : Bool :=
  decide (2 ≤ xs.length) && decide (sampleVar xs < 1/10^20)

/-- Lines 84-99 of the equation-5 script: the usability gate.  `none`
means the subgroup is admitted to estimation; `some reason` is the
recorded skip reason (exact strings of the script). -/
def gateReason (rows : List PanelRow) : Option String :=
  if nCountries rows < MIN_COUNTRIES then
    some ("only " ++ toString (nCountries rows) ++ " countries")
  else if rows.length < MIN_OBS then
    some ("only " ++ toString rows.length ++ " obs")
  else if stdLtEps (adjcovCVals rows) then
    some "no variation in moderator"
  else none

/-- The per-industry loop of `step_model` restricted to the gate: every
subgroup either enters the admitted list or is recorded in the skipped
list with its reason. -/
def runIndustries (groups : List (String × List PanelRow)) :
    List String × List (String × String) :=
  groups.foldr (fun g acc =>
    match gateReason g.2 with
    | none => (g.1 :: acc.1, acc.2)
    | some reason => (acc.1, (g.1, reason) :: acc.2)) ([], [])

/-- State of a raw source file as seen by a loader. -/
inductive ReadResult (α : Type) where
  | missing : ReadResult α
  | parseError : ReadResult α
  | ok : α → ReadResult α
  deriving DecidableEq, Repr

/-- `load_safe` of `1-datacheck.py` lines 56-62: `None` on a missing file
or on any read exception, the parsed frame otherwise. -/
def load_safe {α : Type} : ReadResult α → Option α
  | .ok a => some a
  | _ => none

/-- `load_csv` of `2-cleaning-data.py` lines 68-71: raises
`FileNotFoundError` when the path does not exist; a parse failure from
`pd.read_csv` propagates as an exception as well. -/
def load_csv {α : Type} : ReadResult α → Except String α
  | .missing => .error "FileNotFoundError"
  | .parseError => .error "ParserError"
  | .ok a => .ok a

/-- Lines 119-122: the GDP filename fallback — if the primary path does
not exist, the alternative path is read instead (and `load_csv` raises
when that one is missing too). -/
def loadGdpWithFallback {α : Type} (primary alt : ReadResult α) : Except String α :=
  match primary with
  | .missing => load_csv alt
  | p => load_csv p

/-- The source-loading prefix of `main` in `2-cleaning-data.py` (lines
78, 87, 104, 119-122, 131): every source goes through `load_csv`, so the
first missing source aborts the run with the exception. -/
def cleaningLoadAll {α : Type} (ifr klems ictwss gdpPrimary gdpAlt une : ReadResult α) :
    Except String (α × α × α × α × α) := do
  let i ← load_csv ifr
  let k ← load_csv klems
  let c ← load_csv ictwss
  let g ← loadGdpWithFallback gdpPrimary gdpAlt
  let u ← load_csv une
  return (i, k, c, g, u)

/-- Country normalisation applied to Eurostat-style sources (lines
123-127 and 132-136): map the free-text name through
`EUROSTAT_GEO_TO_ISO2`, drop unresolved rows, keep EU members. -/
def normName (t : String) : Option String :=
  (alookup eurostatGeoToIso2 t).bind
    (fun c => if euIso2.contains c then some c else none)

/-- Country normalisation applied to the ICTWSS source (lines 105-106):
map ISO3 through `ISO3_TO_ISO2`, keep EU members. -/
def normIso3 (t : String) : Option String :=
  (alookup iso3ToIso2 t).bind
    (fun c => if euIso2.contains c then some c else none)

/-- Country normalisation applied to the IFR source (line 79): an ISO2
token passes through unchanged when it is in `EU_ISO2`, otherwise the
row is dropped.  There is no reconciliation between `EL` and `GR`. -/
def normIso2 (t : String) : Option String :=
  if euIso2.contains t then some t else none

/-- Country normalisation applied to the KLEMS source (lines 90-91):
`geo_code.isin(EU_ISO2) | geo_code == "EL"`, then
`country_code = geo_code` (pass-through). -/
def normKlemsGeo (t : String) : Option String :=
  if euIso2.contains t || decide (t = "EL") then some t else none

/-- `wavg` of `2-crosswalk_ind1990_to_nace2.py` lines 31-36 on a group of
(`replaceability_ind`, `w_ind`) pairs: weighted average, falling back to
the unweighted mean exactly when the weights sum to zero.  (Groups
produced by a pandas group-by are nonempty, and the columns are parsed
floats.) -/
def wavg (g : List (ℚ × ℚ)) : ℚ :=
  let x := g.map (fun p => p.1)
  let wgt := g.map (fun p => p.2)
  if wgt.sum = 0 then x.sum / (x.length : ℚ)
  else (List.zipWith (fun a b => a * b) x wgt).sum / wgt.sum

/-- Lines 38-47: the aggregation of all detailed entries
(`nace2` bucket, value, weight) mapping to one canonical bucket. -/
def aggregateNace (entries : List (Int × ℚ × ℚ)) (bucket : Int) : ℚ :=
  wavg ((entries.filter (fun e => decide (e.1 = bucket))).map (fun e => e.2))

/-- Country-year robot-stock exposure row of `1-share-shift-weights.py`
(`ifr_long` after the dropna of line 74, so `robot_stock` is numeric). -/
structure ExpRow where
  country : String
  year : Int
  robot_stock : ℚ
  deriving DecidableEq, Repr

/-- Industry weight row (`weights` of lines 35-42). -/
structure WRow where
  industry_id : String
  auto_weight : ℚ
  deriving DecidableEq, Repr

/-- Row of the shift-share panel (lines 91-94; the `log1p` variants of
lines 97-98 play no role in any claim and are omitted). -/
structure SSRow where
  country : String
  year : Int
  robot_stock : ℚ
  industry_id : String
  auto_weight : ℚ
  robot_exposure : ℚ
  deriving DecidableEq, Repr

/-- One cell of the Cartesian product, with the line-94 exposure
`robot_stock * auto_weight`. -/
def ssMk (a : ExpRow) (b : WRow) : SSRow :=
  ⟨a.country, a.year, a.robot_stock, b.industry_id, b.auto_weight,
   a.robot_stock * b.auto_weight⟩

/-- Lines 91-94: `panel = ifr_long.merge(weights, how="cross")` followed
by the exposure product (the line-100 `sort_values` only reorders
rows). -/
def crossPanel (e : List ExpRow) (w : List WRow) : List SSRow :=
  e.flatMap (fun a => w.map (fun b => ssMk a b))

/-- Fixture: IFR input with three consecutive years of one entity (used
for concrete evaluations of the cleaning pipeline). -/
def fixIfrA : List IfrRow :=
  [⟨"AT", "28", 1994, .num 5⟩, ⟨"AT", "28", 1995, .num 6⟩,
   ⟨"AT", "28", 1996, .num 7⟩]

/-- Fixture: matching wide KLEMS rows for `fixIfrA`. -/
def fixKlemsA : List KlemsRow :=
  [⟨"AT", "C28", 1995, .num 2, .num 3, .num 4, .na, .na⟩,
   ⟨"AT", "C28", 1996, .num 2, .num 3, .num 4, .na, .na⟩]

/-- Fixture: GDP rows for `fixIfrA`. -/
def fixGdpA : List GdpRow := [⟨"AT", 1995, .num 100⟩, ⟨"AT", 1996, .num 100⟩]

/-- Fixture: unemployment rows for `fixIfrA`. -/
def fixUneA : List UneRow := [⟨"AT", 1995, .num 5⟩, ⟨"AT", 1996, .num 5⟩]

/-- Fixture: institutional baseline for `fixIfrA`. -/
def fixIctA : List IctRow := [⟨"AT", .num 70, .num 4⟩]

/-- The 1995 row of `assemble idQ fixIfrA fixKlemsA fixGdpA fixUneA fixIctA`. -/
def fixRow1995 : PanelRow :=
  { country := "AT", industry := "28", nace := "C28", year := 1995,
    stock := .num 6, ln_robots := .num 6, ln_robots_lag1 := .num 5,
    LAB_QI := .num 2, VA_PYP := .num 3, CAP_QI := .num 4,
    CAPICT_QI := .na, CAPNICT_QI := .na,
    gdp := .num 100, unemployment := .num 5, AdjCov := .num 70, Coord := .num 4,
    ln_hours := .num 2, ln_va := .num 3, ln_cap := .num 4, ln_gdp := .num 100,
    adjcov := .num 70, coord := .num 4, adjcov_centered := .num 0,
    high_coord := .num 1, high_robot_industry := 1 }

/-- The 1996 row of `assemble idQ fixIfrA fixKlemsA fixGdpA fixUneA fixIctA`. -/
def fixRow1996 : PanelRow :=
  { country := "AT", industry := "28", nace := "C28", year := 1996,
    stock := .num 7, ln_robots := .num 7, ln_robots_lag1 := .num 6,
    LAB_QI := .num 2, VA_PYP := .num 3, CAP_QI := .num 4,
    CAPICT_QI := .na, CAPNICT_QI := .na,
    gdp := .num 100, unemployment := .num 5, AdjCov := .num 70, Coord := .num 4,
    ln_hours := .num 2, ln_va := .num 3, ln_cap := .num 4, ln_gdp := .num 100,
    adjcov := .num 70, coord := .num 4, adjcov_centered := .num 0,
    high_coord := .num 1, high_robot_industry := 1 }

/-- The 1995 row of `dfMerged idQ fixIfrA fixKlemsA fixGdpA fixUneA fixIctA`. -/
def fixM1995 : MRow :=
  { country := "AT", industry := "28", nace := "C28", year := 1995,
    stock := .num 6, ln_robots := .num 6, ln_robots_lag1 := .num 5,
    LAB_QI := .num 2, VA_PYP := .num 3, CAP_QI := .num 4,
    CAPICT_QI := .na, CAPNICT_QI := .na,
    gdp := .num 100, unemployment := .num 5, AdjCov := .num 70, Coord := .num 4 }

/-- The 1996 row of `dfMerged idQ fixIfrA fixKlemsA fixGdpA fixUneA fixIctA`. -/
def fixM1996 : MRow :=
  { country := "AT", industry := "28", nace := "C28", year := 1996,
    stock := .num 7, ln_robots := .num 7, ln_robots_lag1 := .num 6,
    LAB_QI := .num 2, VA_PYP := .num 3, CAP_QI := .num 4,
    CAPICT_QI := .na, CAPNICT_QI := .na,
    gdp := .num 100, unemployment := .num 5, AdjCov := .num 70, Coord := .num 4 }

/-- Fixture for the C1 counterexample: one entity observed in 1995 and
1997 with a gap at 1996. -/
def fixIfrGapC1 : List IfrRow :=
  [⟨"DE", "28", 1995, .num 5⟩, ⟨"DE", "28", 1997, .num 7⟩]

/-- Fixture for the C1 witness: one entity observed in two consecutive
years. -/
def fixIfrConsC1 : List IfrRow :=
  [⟨"FR", "29", 1995, .num 5⟩, ⟨"FR", "29", 1996, .num 7⟩]

/-- Fixture for the C10 counterexample: entity observed in 1994 and 1996,
not in 1995. -/
def fixIfrGap : List IfrRow :=
  [⟨"AT", "28", 1994, .num 5⟩, ⟨"AT", "28", 1996, .num 7⟩]

/-- Matching KLEMS row for `fixIfrGap` (year 1996 only). -/
def fixKlemsGap : List KlemsRow :=
  [⟨"AT", "C28", 1996, .num 2, .num 3, .num 4, .na, .na⟩]

/-- Fixture for the C10 witness: entity with a present 1995 row whose
robot stock is exactly zero, observed again in 1996. -/
def fixIfrZero : List IfrRow :=
  [⟨"AT", "28", 1995, .num 0⟩, ⟨"AT", "28", 1996, .num 7⟩]

/-- Matching KLEMS row for `fixIfrZero`. -/
def fixKlemsZero : List KlemsRow :=
  [⟨"AT", "C28", 1996, .num 2, .num 3, .num 4, .na, .na⟩]

/-- Candidate merged row for the C3 fixture (state before the
institutional left join; `AdjCov`/`Coord` still unset). -/
def mkC3Row (c ind nace : String) (y : Int) : MRow :=
  { country := c, industry := ind, nace := nace, year := y,
    stock := .num 1, ln_robots := .num 1, ln_robots_lag1 := .num 1,
    LAB_QI := .num 2, VA_PYP := .num 3, CAP_QI := .num 4,
    CAPICT_QI := .na, CAPNICT_QI := .na,
    gdp := .num 100, unemployment := .num 5, AdjCov := .na, Coord := .na }

/-- C3 fixture: 2 countries x 2 industries x 3 years = 12 candidate
rows before the institutional left join. -/
def c3Fix12 : List MRow :=
  ["AT", "BE"].flatMap (fun c =>
    [("28", "C28"), ("29", "C29-C30")].flatMap (fun p =>
      [(1995 : Int), 1996, 1997].map (fun y => mkC3Row c p.1 p.2 y)))

/-- C3 fixture: institutional data exists for AT only. -/
def c3Ict : List IctRow := [⟨"AT", .num 70, .num 4⟩]

/-- Erase the institutional columns (used to state that the left join
changes nothing else). -/
def stripIct (r : MRow) : MRow := { r with AdjCov := .na, Coord := .na }

/-- First row of `joinIct c3Fix12 c3Ict`. -/
def c3row0 : MRow := { mkC3Row "AT" "28" "C28" 1995 with AdjCov := .num 70, Coord := .num 4 }

/-- A fully populated panel row for usability-gate fixtures; only the
country, the year (to keep entity-years distinct) and the centered
moderator vary. -/
def mkGateRow (c : String) (y : Int) (v : Val) : PanelRow :=
  { country := c, industry := "28", nace := "C28", year := y,
    stock := .num 1, ln_robots := .num 1, ln_robots_lag1 := .num 1,
    LAB_QI := .num 1, VA_PYP := .num 1, CAP_QI := .num 1,
    CAPICT_QI := .na, CAPNICT_QI := .na,
    gdp := .num 1, unemployment := .num 1, AdjCov := .num 1, Coord := .num 1,
    ln_hours := .num 1, ln_va := .num 1, ln_cap := .num 1, ln_gdp := .num 1,
    adjcov := .num 1, coord := .num 1, adjcov_centered := v,
    high_coord := .num 1, high_robot_industry := 1 }

/-- Country pool for the gate fixtures. -/
def c4Countries : List String := ["AT", "BE", "CZ", "DE", "DK"]

/-- C4 boundary fixture: 51 rows over 5 countries whose centered
moderator has sample variance exactly 1e-20, i.e. sample standard
deviation exactly 1e-10. -/
def c4FixBoundary : List PanelRow :=
  (List.range 51).map (fun t =>
    mkGateRow (c4Countries.getD (t % 5) "AT") (1900 + (t : Int))
      (.num (if t = 0 then 5/10^10 else if t = 1 then -5/10^10 else 0)))

/-- C4 fixture: 50 well-varied rows over exactly 4 countries. -/
def c4Fix4 : List PanelRow :=
  (List.range 50).map (fun t =>
    mkGateRow (["AT", "BE", "CZ", "DE"].getD (t % 4) "AT") (1900 + (t : Int))
      (.num (if t % 2 = 0 then 0 else 1)))

/-- C4 fixture: 50 well-varied rows over exactly 5 countries. -/
def c4Fix5 : List PanelRow :=
  (List.range 50).map (fun t =>
    mkGateRow (c4Countries.getD (t % 5) "AT") (1900 + (t : Int))
      (.num (if t % 2 = 0 then 0 else 1)))

/-- C9 fixture: 2 countries x 3 years of exposure data. -/
def c9Exp : List ExpRow :=
  ["DE", "FR"].flatMap (fun c =>
    [(2004 : Int), 2005, 2006].map (fun y => ⟨c, y, 10⟩))

/-- C9 fixture: 4 industries of weights. -/
def c9W : List WRow := [⟨"i1", 1⟩, ⟨"i2", 2⟩, ⟨"i3", 3⟩, ⟨"i4", 4⟩]

attribute [local semireducible] Rat.add Rat.mul Rat.inv Rat.sub

theorem Val.notna_iff {v : Val} : v.notna = true ↔ v ≠ .na := by
  cases v <;> simp [Val.notna]

theorem Val.isNum_of_notna_ne_ninf {v : Val} (h1 : v.notna = true)
    (h2 : v ≠ .ninf) : v.isNum = true := by
  cases v <;> simp_all [Val.notna, Val.isNum]

theorem lnClip_isNum (lnQ : ℚ → ℚ) {v : Val} (h : v ≠ .na) :
    (lnClip lnQ v).isNum = true := by
  cases v with
  | na => exact absurd rfl h
  | ninf =>
    simp only [lnClip, clipLower, npLog]
    norm_num [Val.isNum]
  | num q =>
    have hgt : 0 < max q (1/10) :=
      lt_of_lt_of_le (by norm_num) (le_max_right q (1/10))
    have h1 : ¬ (max q (1/10) < 0) := not_lt.mpr hgt.le
    have h2 : max q (1/10) ≠ 0 := ne_of_gt hgt
    simp only [lnClip, clipLower, npLog]
    rw [if_neg h1, if_neg h2]
    rfl

theorem lnClip_ne_ninf (lnQ : ℚ → ℚ) (v : Val) : lnClip lnQ v ≠ .ninf := by
  cases v with
  | na => simp [lnClip, clipLower, npLog]
  | ninf =>
    have := lnClip_isNum lnQ (v := .ninf) (by simp)
    intro hc
    rw [hc] at this
    simp [Val.isNum] at this
  | num q =>
    have := lnClip_isNum lnQ (v := .num q) (by simp)
    intro hc
    rw [hc] at this
    simp [Val.isNum] at this

theorem lnRobots_ne_ninf (lnQ : ℚ → ℚ) (v : Val) : lnRobots lnQ v ≠ .ninf := by
  cases v with
  | na => simp [lnRobots, replaceZeroNa, npLog]
  | ninf => simp [lnRobots, replaceZeroNa, npLog]
  | num q =>
    by_cases h0 : q = 0
    · simp [lnRobots, replaceZeroNa, npLog, h0]
    · by_cases hneg : q < 0
      · simp [lnRobots, replaceZeroNa, npLog, h0, hneg]
      · simp [lnRobots, replaceZeroNa, npLog, h0, hneg]

theorem groupShiftGo_getElem? {α κ : Type} [DecidableEq κ] (key : α → κ)
    (val : α → Val) :
    ∀ (rows prev : List α) (i : Nat),
      (groupShiftGo key val prev rows)[i]? =
        (rows[i]?).map
          (fun r => (r, lastVal key val ((rows.take i).reverse ++ prev) (key r))) := by
  intro rows
  induction rows with
  | nil => intro prev i; simp [groupShiftGo]
  | cons r rs ih =>
    intro prev i
    cases i with
    | zero => simp [groupShiftGo]
    | succ n =>
      simp only [groupShiftGo, List.getElem?_cons_succ, List.take_succ_cons,
        List.reverse_cons, List.append_assoc, List.singleton_append]
      exact ih (r :: prev) n

theorem groupShift_getElem? {α κ : Type} [DecidableEq κ] (key : α → κ)
    (val : α → Val) (rows : List α) (i : Nat) :
    (groupShift key val rows)[i]? =
      (rows[i]?).map
        (fun r => (r, lastVal key val ((rows.take i).reverse) (key r))) := by
  simpa [groupShift] using groupShiftGo_getElem? key val rows [] i

theorem lastVal_cons_pos {α κ : Type} [DecidableEq κ] (key : α → κ)
    (val : α → Val) {s : α} {k : κ} (h : key s = k) (past : List α) :
    lastVal key val (s :: past) k = val s := by
  unfold lastVal
  rw [List.find?_cons_of_pos _ (by simpa using h)]

theorem lastVal_eq_na {α κ : Type} [DecidableEq κ] (key : α → κ)
    (val : α → Val) {past : List α} {k : κ} (h : ∀ x ∈ past, key x ≠ k) :
    lastVal key val past k = .na := by
  have hf : past.find? (fun s => decide (key s = k)) = none :=
    List.find?_eq_none.mpr (by intro x hx; simpa using h x hx)
  unfold lastVal
  rw [hf]

theorem lastVal_append_left_none {α κ : Type} [DecidableEq κ] (key : α → κ)
    (val : α → Val) {l1 : List α} (l2 : List α) {k : κ}
    (h : ∀ x ∈ l1, key x ≠ k) :
    lastVal key val (l1 ++ l2) k = lastVal key val l2 k := by
  have hf : l1.find? (fun s => decide (key s = k)) = none :=
    List.find?_eq_none.mpr (by intro x hx; simpa using h x hx)
  unfold lastVal
  rw [List.find?_append, hf, Option.none_or]

theorem lastVal_shape {α κ : Type} [DecidableEq κ] (key : α → κ)
    (val : α → Val) (past : List α) (k : κ) :
    lastVal key val past k = .na ∨
      ∃ s ∈ past, lastVal key val past k = val s := by
  cases hf : past.find? (fun s => decide (key s = k)) with
  | none => left; unfold lastVal; rw [hf]
  | some s =>
    right
    exact ⟨s, List.mem_of_find?_eq_some hf, by unfold lastVal; rw [hf]⟩

theorem groupShift_lag_latest {α κ : Type} [DecidableEq κ] (key : α → κ)
    (val : α → Val) (rows : List α) (i j : Nat) (r s : α)
    (hi : rows[i]? = some r) (hj : rows[j]? = some s) (hji : j < i)
    (hkey : key s = key r)
    (hmid : ∀ m x, j < m → m < i → rows[m]? = some x → key x ≠ key r) :
    (groupShift key val rows)[i]? = some (r, val s) := by
  rw [groupShift_getElem?, hi]
  simp only [Option.map_some']
  suffices h : lastVal key val ((rows.take i).reverse) (key r) = val s by rw [h]
  have hsplit : rows.take i = rows.take (j+1) ++ (rows.drop (j+1)).take (i - (j+1)) := by
    rw [← List.take_add]
    congr 1
    omega
  have htake : rows.take (j+1) = rows.take j ++ [s] := by
    rw [List.take_succ, hj]
    rfl
  have hrev : (rows.take i).reverse =
      ((rows.drop (j+1)).take (i - (j+1))).reverse ++ (s :: (rows.take j).reverse) := by
    rw [hsplit, htake]
    simp [List.reverse_append, List.append_assoc]
  rw [hrev]
  rw [lastVal_append_left_none key val _ ?hmidrev]
  · exact lastVal_cons_pos key val hkey _
  case hmidrev =>
    intro x hx
    rw [List.mem_reverse] at hx
    obtain ⟨t, ht⟩ := List.mem_iff_getElem?.mp hx
    have htlen : t < ((rows.drop (j+1)).take (i - (j+1))).length :=
      (List.getElem?_eq_some_iff.mp ht).1
    have h5 : t < i - (j+1) :=
      lt_of_lt_of_le htlen (by rw [List.length_take]; exact min_le_left _ _)
    rw [List.getElem?_take_of_lt h5, List.getElem?_drop] at ht
    exact hmid (j+1+t) x (by omega) (by omega) ht

theorem groupShift_lag_first {α κ : Type} [DecidableEq κ] (key : α → κ)
    (val : α → Val) (rows : List α) (i : Nat) (r : α)
    (hi : rows[i]? = some r)
    (hfirst : ∀ m x, m < i → rows[m]? = some x → key x ≠ key r) :
    (groupShift key val rows)[i]? = some (r, Val.na) := by
  rw [groupShift_getElem?, hi]
  simp only [Option.map_some']
  suffices h : lastVal key val ((rows.take i).reverse) (key r) = Val.na by rw [h]
  apply lastVal_eq_na
  intro x hx
  rw [List.mem_reverse] at hx
  obtain ⟨t, ht⟩ := List.mem_iff_getElem?.mp hx
  have htlen : t < (rows.take i).length := (List.getElem?_eq_some_iff.mp ht).1
  have h5 : t < i :=
    lt_of_lt_of_le htlen (by rw [List.length_take]; exact min_le_left _ _)
  rw [List.getElem?_take_of_lt h5] at ht
  exact hfirst t x h5 ht

theorem groupShift_mem {α κ : Type} [DecidableEq κ] (key : α → κ)
    (val : α → Val) (rows : List α) :
    ∀ p ∈ groupShift key val rows,
      p.1 ∈ rows ∧ (p.2 = .na ∨ ∃ s ∈ rows, p.2 = val s) := by
  intro p hp
  obtain ⟨i, hi⟩ := List.mem_iff_getElem?.mp hp
  rw [groupShift_getElem?] at hi
  cases hr : rows[i]? with
  | none => rw [hr] at hi; simp at hi
  | some r0 =>
    rw [hr] at hi
    simp only [Option.map_some', Option.some.injEq] at hi
    subst hi
    refine ⟨List.mem_iff_getElem?.mpr ⟨i, hr⟩, ?_⟩
    rcases lastVal_shape key val ((rows.take i).reverse) (key r0) with h | ⟨s, hs, hv⟩
    · exact Or.inl h
    · exact Or.inr ⟨s, List.mem_of_mem_take (List.mem_reverse.mp hs), hv⟩

theorem pairwise_ifrWithLn (lnQ : ℚ → ℚ) {rows : List IfrRow} (h : yearSorted rows) :
    (ifrWithLn lnQ rows).Pairwise (fun a b => lKey a = lKey b → a.year < b.year) := by
  unfold ifrWithLn ifrFiltered
  rw [List.pairwise_map]
  exact ((h.filter _).filter _).filter _

theorem ifrLagged_getElem?_eq (lnQ : ℚ → ℚ) (rows : List IfrRow) (i : Nat) :
    (ifrLagged lnQ rows)[i]? =
      Option.map mkLagRow
        ((groupShift lKey (fun x => x.ln_robots) (ifrWithLn lnQ rows))[i]?) := by
  unfold ifrLagged
  exact List.getElem?_map _ _ _

/-- Characterisation of the line-83 lag: assuming the rows of each
entity appear in strictly increasing year order, (1) the first observed
row of an entity has a null lag; (2) for two consecutive observed years
the lag at the second equals `ln_robots` at the first; (3) in general
the lag equals `ln_robots` of the entity's most recent prior observed
row. -/
theorem ifrLagged_lag_spec (lnQ : ℚ → ℚ) (rows : List IfrRow) (hsort : yearSorted rows) :
    ∀ (i : Nat) (r : IfrRowLag), (ifrLagged lnQ rows)[i]? = some r →
      ((∀ (m : Nat) (x : IfrRowL), m < i → (ifrWithLn lnQ rows)[m]? = some x →
          lKey x ≠ (r.country, r.industry)) → r.ln_robots_lag1 = Val.na) ∧
      (∀ (j : Nat) (s : IfrRowL), (ifrWithLn lnQ rows)[j]? = some s →
          lKey s = (r.country, r.industry) → s.year + 1 = r.year →
          r.ln_robots_lag1 = s.ln_robots) ∧
      (∀ (j : Nat) (s : IfrRowL), j < i → (ifrWithLn lnQ rows)[j]? = some s →
          lKey s = (r.country, r.industry) →
          (∀ (m : Nat) (x : IfrRowL), j < m → m < i →
            (ifrWithLn lnQ rows)[m]? = some x → lKey x ≠ lKey s) →
          r.ln_robots_lag1 = s.ln_robots) := by
  intro i r hi
  have hgs := groupShift_getElem? lKey (fun x => x.ln_robots) (ifrWithLn lnQ rows) i
  rw [ifrLagged_getElem?_eq, hgs] at hi
  cases hr0 : (ifrWithLn lnQ rows)[i]? with
  | none => rw [hr0] at hi; simp at hi
  | some r0 =>
    rw [hr0] at hi
    simp only [Option.map_some', Option.some.injEq] at hi
    subst hi
    have hp := pairwise_ifrWithLn lnQ hsort
    have hilen : i < (ifrWithLn lnQ rows).length :=
      (List.getElem?_eq_some_iff.mp hr0).1
    -- general "most recent prior row" fact
    have hlatest : ∀ j s, j < i → (ifrWithLn lnQ rows)[j]? = some s →
        lKey s = lKey r0 →
        (∀ m x, j < m → m < i → (ifrWithLn lnQ rows)[m]? = some x →
          lKey x ≠ lKey s) →
        lastVal lKey (fun x => x.ln_robots)
          (((ifrWithLn lnQ rows).take i).reverse) (lKey r0) = s.ln_robots := by
      intro j s hji hj hkey hmid
      have h1 := groupShift_lag_latest lKey (fun x => x.ln_robots)
        (ifrWithLn lnQ rows) i j r0 s hr0 hj hji hkey
        (by intro m x hm1 hm2 hmx
            rw [← hkey]
            exact hmid m x hm1 hm2 hmx)
      rw [hgs, hr0] at h1
      simp only [Option.map_some', Option.some.injEq, Prod.mk.injEq, true_and] at h1
      exact h1
    refine ⟨?_, ?_, ?_⟩
    · -- first observed row of the entity
      intro hfirst
      have h1 := groupShift_lag_first lKey (fun x => x.ln_robots)
        (ifrWithLn lnQ rows) i r0 hr0 (fun m x hm hmx => hfirst m x hm hmx)
      rw [hgs, hr0] at h1
      simp only [Option.map_some', Option.some.injEq, Prod.mk.injEq, true_and] at h1
      exact h1
    · -- consecutive observed years
      intro j s hj hkey hyear
      have hjlen : j < (ifrWithLn lnQ rows).length :=
        (List.getElem?_eq_some_iff.mp hj).1
      have hyear0 : s.year + 1 = r0.year := hyear
      have hkey0 : lKey s = lKey r0 := hkey
      obtain ⟨_, ei⟩ := List.getElem?_eq_some_iff.mp hr0
      obtain ⟨_, ej⟩ := List.getElem?_eq_some_iff.mp hj
      rcases Nat.lt_trichotomy j i with hji | hji | hji
      · -- main case: j is before i, and no same-entity row lies between
        refine hlatest j s hji hj hkey0 ?_
        intro m x hm1 hm2 hmx hxe
        have hmlen : m < (ifrWithLn lnQ rows).length :=
          (List.getElem?_eq_some_iff.mp hmx).1
        obtain ⟨_, em⟩ := List.getElem?_eq_some_iff.mp hmx
        have hrel1 := List.pairwise_iff_getElem.mp hp j m hjlen hmlen hm1
        have hrel2 := List.pairwise_iff_getElem.mp hp m i hmlen hilen hm2
        rw [ej, em] at hrel1
        rw [em, ei] at hrel2
        have hy1 : s.year < x.year := hrel1 hxe.symm
        have hy2 : x.year < r0.year := hrel2 (hxe.trans hkey0)
        omega
      · -- j = i is impossible: the year equation becomes y + 1 = y
        subst hji
        rw [hj] at hr0
        simp only [Option.some.injEq] at hr0
        subst hr0
        omega
      · -- i < j is impossible by the sortedness hypothesis
        have hrel := List.pairwise_iff_getElem.mp hp i j hilen hjlen hji
        rw [ei, ej] at hrel
        have := hrel hkey0.symm
        omega
    · -- most recent prior observed row, in general
      intro j s hji hj hkey hmid
      exact hlatest j s hji hj hkey hmid

/-- Claim C1 (amended).  In the IFR frame after line 83 of
`2-cleaning-data.py` (lag computed by positional `shift(1)` within each
(country, industry) group), assuming the rows of each entity appear in
strictly increasing year order: (1) the first observed row of an entity
has a null lag; (2) for two consecutive observed years y and y+1 of the
same entity, the lag at y+1 equals `ln_robots` at y; (3) in general —
including after a gap in the observed years — the lag equals `ln_robots`
of the entity's most recent prior observed row (carry-over across gaps),
not null. -/
theorem c1_lag_amended (lnQ : ℚ → ℚ) (rows : List IfrRow) (hsort : yearSorted rows) :
    ∀ (i : Nat) (r : IfrRowLag), (ifrLagged lnQ rows)[i]? = some r →
      ((∀ (m : Nat) (x : IfrRowL), m < i → (ifrWithLn lnQ rows)[m]? = some x →
          lKey x ≠ (r.country, r.industry)) → r.ln_robots_lag1 = Val.na) ∧
      (∀ (j : Nat) (s : IfrRowL), (ifrWithLn lnQ rows)[j]? = some s →
          lKey s = (r.country, r.industry) → s.year + 1 = r.year →
          r.ln_robots_lag1 = s.ln_robots) ∧
      (∀ (j : Nat) (s : IfrRowL), j < i → (ifrWithLn lnQ rows)[j]? = some s →
          lKey s = (r.country, r.industry) →
          (∀ (m : Nat) (x : IfrRowL), j < m → m < i →
            (ifrWithLn lnQ rows)[m]? = some x → lKey x ≠ lKey s) →
          r.ln_robots_lag1 = s.ln_robots) :=
  ifrLagged_lag_spec lnQ rows hsort

/-- Witness for C1: on a two-row entity observed in consecutive years
1995 and 1996, the amended theorem yields a null lag at the first row
and `ln_robots`(1995) as the lag at 1996. -/
theorem c1_lag_amended_witness :
    (ifrLagged idQ fixIfrConsC1)[0]? =
      some ⟨"FR", "29", 1995, .num 5, .num 5, .na⟩ ∧
    (⟨"FR", "29", 1995, .num 5, .num 5, .na⟩ : IfrRowLag).ln_robots_lag1 = Val.na ∧
    (ifrLagged idQ fixIfrConsC1)[1]? =
      some ⟨"FR", "29", 1996, .num 7, .num 7, .num 5⟩ ∧
    (⟨"FR", "29", 1996, .num 7, .num 7, .num 5⟩ : IfrRowLag).ln_robots_lag1 =
      (⟨"FR", "29", 1995, .num 5, .num 5⟩ : IfrRowL).ln_robots := by
  refine ⟨by decide, ?_, by decide, ?_⟩
  · exact (c1_lag_amended idQ fixIfrConsC1 (by decide) 0
      ⟨"FR", "29", 1995, .num 5, .num 5, .na⟩ (by decide)).1
      (by intro m x hm hmx; omega)
  · exact (c1_lag_amended idQ fixIfrConsC1 (by decide) 1
      ⟨"FR", "29", 1996, .num 7, .num 7, .num 5⟩ (by decide)).2.1 0
      ⟨"FR", "29", 1995, .num 5, .num 5⟩ (by decide) (by decide) (by decide)

/-- Counterexample for C1 as stated: the entity ("DE", "28") is observed
in 1995 and 1997 with a gap at 1996.  The claim says the lag after the
gap is null; the positional `shift(1)` instead carries the 1995 value
over the gap, so the 1997 row has lag `ln_robots`(1995) = `num 5`
(evaluated with `lnQ := idQ`), which is not null. -/
theorem c1_lag_counterexample :
    yearSorted fixIfrGapC1 ∧
    (ifrLagged idQ fixIfrGapC1).map (fun r => (r.year, r.ln_robots_lag1)) =
      [((1995 : Int), Val.na), ((1997 : Int), Val.num 5)] ∧
    Val.num 5 ≠ Val.na := by
  exact ⟨by decide, by decide, by decide⟩

theorem mem_ifrNace {lnQ : ℚ → ℚ} {rows : List IfrRow} {p : IfrRowLag × String}
    (hp : p ∈ ifrNace lnQ rows) : p.1 ∈ ifrPanel lnQ rows := by
  unfold ifrNace at hp
  rw [List.mem_filterMap] at hp
  obtain ⟨a, ha, he⟩ := hp
  cases hl : (alookup ifrToNace a.industry) with
  | none => rw [hl] at he; simp at he
  | some n =>
    rw [hl] at he
    simp only [Option.map_some', Option.some.injEq] at he
    rw [← he]
    exact ha

theorem mem_joinKlems {ifrn : List (IfrRowLag × String)} {klems : List KlemsRow}
    {m : MRow} (h : m ∈ joinKlems ifrn klems) :
    ∃ p ∈ ifrn, m.country = p.1.country ∧ m.industry = p.1.industry ∧
      m.year = p.1.year ∧ m.ln_robots = p.1.ln_robots ∧
      m.ln_robots_lag1 = p.1.ln_robots_lag1 := by
  rw [joinKlems, List.mem_flatMap] at h
  obtain ⟨p, hp, hmem⟩ := h
  rw [List.mem_map] at hmem
  obtain ⟨k, _, rfl⟩ := hmem
  exact ⟨p, hp, rfl, rfl, rfl, rfl, rfl⟩

theorem mem_joinGdp {df : List MRow} {gdp : List GdpRow} {m2 : MRow}
    (h : m2 ∈ joinGdp df gdp) :
    ∃ m ∈ df, m2.country = m.country ∧ m2.industry = m.industry ∧
      m2.year = m.year ∧ m2.ln_robots = m.ln_robots ∧
      m2.ln_robots_lag1 = m.ln_robots_lag1 ∧ m2.LAB_QI = m.LAB_QI ∧
      m2.VA_PYP = m.VA_PYP ∧ m2.CAP_QI = m.CAP_QI := by
  rw [joinGdp, List.mem_flatMap] at h
  obtain ⟨m, hm, hmem⟩ := h
  refine ⟨m, hm, ?_⟩
  unfold joinGdpRow at hmem
  split at hmem
  · rw [List.mem_singleton] at hmem
    subst hmem
    exact ⟨rfl, rfl, rfl, rfl, rfl, rfl, rfl, rfl⟩
  · rw [List.mem_map] at hmem
    obtain ⟨g, _, rfl⟩ := hmem
    exact ⟨rfl, rfl, rfl, rfl, rfl, rfl, rfl, rfl⟩

theorem mem_joinUne {df : List MRow} {une : List UneRow} {m2 : MRow}
    (h : m2 ∈ joinUne df une) :
    ∃ m ∈ df, m2.country = m.country ∧ m2.industry = m.industry ∧
      m2.year = m.year ∧ m2.ln_robots = m.ln_robots ∧
      m2.ln_robots_lag1 = m.ln_robots_lag1 ∧ m2.LAB_QI = m.LAB_QI ∧
      m2.VA_PYP = m.VA_PYP ∧ m2.CAP_QI = m.CAP_QI := by
  rw [joinUne, List.mem_flatMap] at h
  obtain ⟨m, hm, hmem⟩ := h
  refine ⟨m, hm, ?_⟩
  unfold joinUneRow at hmem
  split at hmem
  · rw [List.mem_singleton] at hmem
    subst hmem
    exact ⟨rfl, rfl, rfl, rfl, rfl, rfl, rfl, rfl⟩
  · rw [List.mem_map] at hmem
    obtain ⟨u, _, rfl⟩ := hmem
    exact ⟨rfl, rfl, rfl, rfl, rfl, rfl, rfl, rfl⟩

theorem mem_joinIct {df : List MRow} {ict : List IctRow} {m2 : MRow}
    (h : m2 ∈ joinIct df ict) :
    ∃ m ∈ df, m2.country = m.country ∧ m2.industry = m.industry ∧
      m2.year = m.year ∧ m2.ln_robots = m.ln_robots ∧
      m2.ln_robots_lag1 = m.ln_robots_lag1 ∧ m2.LAB_QI = m.LAB_QI ∧
      m2.VA_PYP = m.VA_PYP ∧ m2.CAP_QI = m.CAP_QI := by
  rw [joinIct, List.mem_flatMap] at h
  obtain ⟨m, hm, hmem⟩ := h
  refine ⟨m, hm, ?_⟩
  unfold joinIctRow at hmem
  split at hmem
  · rw [List.mem_singleton] at hmem
    subst hmem
    exact ⟨rfl, rfl, rfl, rfl, rfl, rfl, rfl, rfl⟩
  · rw [List.mem_map] at hmem
    obtain ⟨i, _, rfl⟩ := hmem
    exact ⟨rfl, rfl, rfl, rfl, rfl, rfl, rfl, rfl⟩

theorem dfMerged_robot_fields {lnQ : ℚ → ℚ} {ifr : List IfrRow}
    {klems : List KlemsRow} {gdp : List GdpRow} {une : List UneRow}
    {ict : List IctRow} {m : MRow}
    (h : m ∈ dfMerged lnQ ifr klems gdp une ict) :
    ∃ a ∈ ifrPanel lnQ ifr,
      m.country = a.country ∧ m.industry = a.industry ∧ m.year = a.year ∧
      m.ln_robots = a.ln_robots ∧ m.ln_robots_lag1 = a.ln_robots_lag1 := by
  unfold dfMerged at h
  obtain ⟨m3, hm3, e1, e2, e3, e4, e5, _, _, _⟩ := mem_joinIct h
  obtain ⟨m2, hm2, f1, f2, f3, f4, f5, _, _, _⟩ := mem_joinUne hm3
  obtain ⟨m1, hm1, g1, g2, g3, g4, g5, _, _, _⟩ := mem_joinGdp hm2
  obtain ⟨p, hp, k1, k2, k3, k4, k5⟩ := mem_joinKlems hm1
  refine ⟨p.1, mem_ifrNace hp, ?_, ?_, ?_, ?_, ?_⟩
  · rw [e1, f1, g1, k1]
  · rw [e2, f2, g2, k2]
  · rw [e3, f3, g3, k3]
  · rw [e4, f4, g4, k4]
  · rw [e5, f5, g5, k5]

theorem ifrWithLn_ln_shape (lnQ : ℚ → ℚ) (rows : List IfrRow) :
    ∀ s ∈ ifrWithLn lnQ rows,
      ∃ r0 ∈ ifrFiltered rows, s.ln_robots = lnRobots lnQ r0.stock := by
  intro s hs
  unfold ifrWithLn at hs
  rw [List.mem_map] at hs
  obtain ⟨r0, hr0, rfl⟩ := hs
  exact ⟨r0, hr0, rfl⟩

theorem ifrPanel_robot_shape (lnQ : ℚ → ℚ) (rows : List IfrRow) :
    ∀ a ∈ ifrPanel lnQ rows,
      a.ln_robots ≠ Val.ninf ∧
      (a.ln_robots_lag1 = Val.na ∨
        ∃ s ∈ ifrWithLn lnQ rows, a.ln_robots_lag1 = s.ln_robots) := by
  intro a ha
  have ha2 : a ∈ ifrLagged lnQ rows := List.mem_of_mem_filter ha
  unfold ifrLagged at ha2
  rw [List.mem_map] at ha2
  obtain ⟨⟨p1, p2⟩, hp, rfl⟩ := ha2
  obtain ⟨hp1, hshape⟩ :=
    groupShift_mem lKey (fun x => x.ln_robots) (ifrWithLn lnQ rows) _ hp
  constructor
  · obtain ⟨r0, _, he⟩ := ifrWithLn_ln_shape lnQ rows p1 hp1
    have : (mkLagRow (p1, p2)).ln_robots = lnRobots lnQ r0.stock := he
    rw [this]
    exact lnRobots_ne_ninf lnQ r0.stock
  · exact hshape

theorem ifrPanel_lag_ne_ninf (lnQ : ℚ → ℚ) (rows : List IfrRow) :
    ∀ a ∈ ifrPanel lnQ rows, a.ln_robots_lag1 ≠ Val.ninf := by
  intro a ha
  rcases (ifrPanel_robot_shape lnQ rows a ha).2 with h | ⟨s, hs, he⟩
  · rw [h]; simp
  · rw [he]
    obtain ⟨r0, _, he2⟩ := ifrWithLn_ln_shape lnQ rows s hs
    rw [he2]
    exact lnRobots_ne_ninf lnQ r0.stock

theorem adjcov_map_deriveVars (lnQ : ℚ → ℚ) (df : List MRow) :
    (deriveVars lnQ df).map (fun p => p.adjcov) =
      (df.map (deriveStage1 lnQ)).map (fun p => p.adjcov) := by
  unfold deriveVars
  rw [List.map_map]
  exact List.map_congr_left (fun a _ => rfl)

theorem meanVal_assembleDerived (lnQ : ℚ → ℚ) (ifr : List IfrRow)
    (klems : List KlemsRow) (gdp : List GdpRow) (une : List UneRow)
    (ict : List IctRow) :
    meanVal ((assembleDerived lnQ ifr klems gdp une ict).map (fun p => p.adjcov)) =
      adjMeanOf lnQ (dfMerged lnQ ifr klems gdp une ict) := by
  unfold assembleDerived adjMeanOf
  rw [adjcov_map_deriveVars]

theorem assembleDerived_fields (lnQ : ℚ → ℚ) (ifr : List IfrRow)
    (klems : List KlemsRow) (gdp : List GdpRow) (une : List UneRow)
    (ict : List IctRow) :
    ∀ r ∈ assembleDerived lnQ ifr klems gdp une ict,
      (∃ m ∈ dfMerged lnQ ifr klems gdp une ict, r.toMRow = m) ∧
      r.ln_hours = lnClip lnQ r.LAB_QI ∧
      r.ln_va = lnClip lnQ r.VA_PYP ∧
      r.ln_cap = lnClip lnQ r.CAP_QI ∧
      r.ln_gdp = lnClip lnQ r.gdp ∧
      r.adjcov = r.AdjCov ∧ r.coord = r.Coord ∧
      r.adjcov_centered = Val.sub r.adjcov
        (adjMeanOf lnQ (dfMerged lnQ ifr klems gdp une ict)) ∧
      r.high_coord = highCoord r.coord ∧
      r.high_robot_industry = (if highRobotNace.contains r.nace then 1 else 0) := by
  intro r hr
  simp only [assembleDerived, deriveVars] at hr
  rw [List.mem_map] at hr
  obtain ⟨r1, hr1, rfl⟩ := hr
  rw [List.mem_map] at hr1
  obtain ⟨m, hm, rfl⟩ := hr1
  exact ⟨⟨m, hm, rfl⟩, rfl, rfl, rfl, rfl, rfl, rfl, rfl, rfl, rfl⟩

set_option maxRecDepth 2000 in
theorem fixA_dfMerged :
    dfMerged idQ fixIfrA fixKlemsA fixGdpA fixUneA fixIctA = [fixM1995, fixM1996] := by
  unfold dfMerged
  rw [show ifrNace idQ fixIfrA =
    [(⟨"AT", "28", 1995, .num 6, .num 6, .num 5⟩, "C28"),
     (⟨"AT", "28", 1996, .num 7, .num 7, .num 6⟩, "C28")] from by decide]
  decide

set_option maxRecDepth 2000 in
theorem fixA_assembleDerived :
    assembleDerived idQ fixIfrA fixKlemsA fixGdpA fixUneA fixIctA =
      [fixRow1995, fixRow1996] := by
  unfold assembleDerived
  rw [fixA_dfMerged]
  decide

set_option maxRecDepth 2000 in
theorem fixA_assemble :
    assemble idQ fixIfrA fixKlemsA fixGdpA fixUneA fixIctA =
      [fixRow1995, fixRow1996] := by
  unfold assemble
  rw [fixA_assembleDerived]
  decide

set_option maxRecDepth 2000 in
theorem fixA_eq5 :
    eq5Industry (assemble idQ fixIfrA fixKlemsA fixGdpA fixUneA fixIctA) "C28" =
      [fixRow1995, fixRow1996] := by
  unfold eq5Industry eq5Prepared
  rw [fixA_assemble]
  decide

/-- Claim C2 (amended).  In the assembled panel before the final
`dropna`: for the floor-clipped logs (`ln_hours`, `ln_va`, `ln_cap`,
`ln_gdp`), the log is non-null and finite whenever the pre-clip raw
value is non-missing, and it is never `-inf`; the robot-stock logs
(`ln_robots`, `ln_robots_lag1`) are also never `-inf` — but they are NOT
covered by the clip guarantee: `ln_robots` maps a zero stock to null
(see the counterexample), so the claim holds only after excluding the
robot-stock treatment log from the non-nullness guarantee. -/
theorem c2_log_guard_amended (lnQ : ℚ → ℚ) (ifr : List IfrRow)
    (klems : List KlemsRow) (gdp : List GdpRow) (une : List UneRow)
    (ict : List IctRow) :
    (∀ r ∈ assembleDerived lnQ ifr klems gdp une ict,
        (r.LAB_QI ≠ Val.na → r.ln_hours.isNum = true) ∧
        (r.VA_PYP ≠ Val.na → r.ln_va.isNum = true) ∧
        (r.CAP_QI ≠ Val.na → r.ln_cap.isNum = true) ∧
        (r.gdp ≠ Val.na → r.ln_gdp.isNum = true) ∧
        r.ln_hours ≠ Val.ninf ∧ r.ln_va ≠ Val.ninf ∧ r.ln_cap ≠ Val.ninf ∧
        r.ln_gdp ≠ Val.ninf ∧ r.ln_robots ≠ Val.ninf ∧
        r.ln_robots_lag1 ≠ Val.ninf) ∧
    (∀ v, v ≠ Val.na → (lnClip lnQ v).isNum = true) ∧
    (∀ v, lnClip lnQ v ≠ Val.ninf) ∧
    (∀ v, lnRobots lnQ v ≠ Val.ninf) := by
  refine ⟨?_, fun v hv => lnClip_isNum lnQ hv, lnClip_ne_ninf lnQ, lnRobots_ne_ninf lnQ⟩
  intro r hr
  obtain ⟨⟨m, hm, hme⟩, e1, e2, e3, e4, _⟩ :=
    assembleDerived_fields lnQ ifr klems gdp une ict r hr
  obtain ⟨a, ha, _, _, _, b4, b5⟩ := dfMerged_robot_fields hm
  have hrm4 : r.ln_robots = a.ln_robots := by rw [show r.ln_robots = m.ln_robots by rw [hme], b4]
  have hrm5 : r.ln_robots_lag1 = a.ln_robots_lag1 := by
    rw [show r.ln_robots_lag1 = m.ln_robots_lag1 by rw [hme], b5]
  refine ⟨fun h => e1 ▸ lnClip_isNum lnQ h, fun h => e2 ▸ lnClip_isNum lnQ h,
    fun h => e3 ▸ lnClip_isNum lnQ h, fun h => e4 ▸ lnClip_isNum lnQ h,
    e1 ▸ lnClip_ne_ninf lnQ _, e2 ▸ lnClip_ne_ninf lnQ _,
    e3 ▸ lnClip_ne_ninf lnQ _, e4 ▸ lnClip_ne_ninf lnQ _, ?_, ?_⟩
  · rw [hrm4]
    exact (ifrPanel_robot_shape lnQ ifr a ha).1
  · rw [hrm5]
    exact ifrPanel_lag_ne_ninf lnQ ifr a ha

/-- Witness for C2: on the fixture pipeline run, the 1995 row has a
non-missing raw labour value and hence a finite, non-null `ln_hours`,
and its lagged robot log is not `-inf`. -/
theorem c2_log_guard_amended_witness :
    fixRow1995 ∈ assembleDerived idQ fixIfrA fixKlemsA fixGdpA fixUneA fixIctA ∧
    fixRow1995.LAB_QI ≠ Val.na ∧ fixRow1995.ln_hours.isNum = true ∧
    fixRow1995.ln_robots_lag1 ≠ Val.ninf := by
  have hmem : fixRow1995 ∈ assembleDerived idQ fixIfrA fixKlemsA fixGdpA fixUneA fixIctA := by
    rw [fixA_assembleDerived]
    decide
  have h := (c2_log_guard_amended idQ fixIfrA fixKlemsA fixGdpA fixUneA fixIctA).1
    fixRow1995 hmem
  exact ⟨hmem, by decide, h.1 (by decide), h.2.2.2.2.2.2.2.2.2⟩

/-- Counterexample for C2 as stated: the claim includes the robot-stock
treatment log among the `ln_X` with the floor-clip guarantee, but line
82 replaces zero by NaN instead of clipping, so a non-missing raw robot
stock of 0 yields a null `ln_robots`. -/
theorem c2_log_guard_counterexample :
    (ifrWithLn idQ [⟨"AT", "28", 2000, .num 0⟩]).map (fun r => r.ln_robots) =
      [Val.na] ∧
    lnRobots idQ (Val.num 0) = Val.na ∧ Val.num 0 ≠ Val.na := by
  exact ⟨by decide, by decide, by decide⟩

theorem mem_assemble {lnQ : ℚ → ℚ} {ifr : List IfrRow} {klems : List KlemsRow}
    {gdp : List GdpRow} {une : List UneRow} {ict : List IctRow} {r : PanelRow}
    (h : r ∈ assemble lnQ ifr klems gdp une ict) :
    r ∈ assembleDerived lnQ ifr klems gdp une ict ∧ requiredNotna r = true := by
  unfold assemble at h
  exact ⟨List.mem_of_mem_filter h, List.of_mem_filter h⟩

theorem ifrWithLn_ln_eq (lnQ : ℚ → ℚ) (rows : List IfrRow) :
    ∀ s ∈ ifrWithLn lnQ rows, s.ln_robots = lnRobots lnQ s.stock := by
  intro s hs
  unfold ifrWithLn at hs
  rw [List.mem_map] at hs
  obtain ⟨r0, _, rfl⟩ := hs
  rfl

/-- Claim C10 (amended).  (i) Every row of the cleaned output panel has
non-null, finite `ln_hours`, `ln_robots_lag1`, `ln_va` and `ln_cap`
(the lines 171-173 `dropna` removes nulls, and no `-inf` can occur).
(ii) An entity-year whose previous-year row is PRESENT in the filtered
IFR data with a zero or missing robots-per-worker value is absent from
the output panel (its lag is null and the `dropna` removes it).  The
original claim's stronger version — absence whenever the previous-year
value is missing because the year itself is unobserved — is false: the
positional shift then carries an older value over the gap (see the
counterexample). -/
theorem c10_required_amended (lnQ : ℚ → ℚ) (ifr : List IfrRow)
    (klems : List KlemsRow) (gdp : List GdpRow) (une : List UneRow)
    (ict : List IctRow) (hsort : yearSorted ifr) :
    (∀ r ∈ assemble lnQ ifr klems gdp une ict,
        r.ln_hours.isNum = true ∧ r.ln_robots_lag1.isNum = true ∧
        r.ln_va.isNum = true ∧ r.ln_cap.isNum = true) ∧
    (∀ (c k : String) (y : Int),
        (∃ (j : Nat) (s : IfrRowL), (ifrWithLn lnQ ifr)[j]? = some s ∧
          s.country = c ∧ s.industry = k ∧ s.year = y - 1 ∧
          (s.stock = Val.na ∨ s.stock = Val.num 0)) →
        ∀ r ∈ assemble lnQ ifr klems gdp une ict,
          ¬(r.country = c ∧ r.industry = k ∧ r.year = y)) := by
  constructor
  · intro r hr
    obtain ⟨hrAD, hreq⟩ := mem_assemble hr
    unfold requiredNotna at hreq
    simp only [Bool.and_eq_true] at hreq
    obtain ⟨⟨⟨n1, n2⟩, n3⟩, n4⟩ := hreq
    obtain ⟨⟨m, hm, hme⟩, e1, e2, e3, _⟩ :=
      assembleDerived_fields lnQ ifr klems gdp une ict r hrAD
    obtain ⟨a, ha, _, _, _, _, a5⟩ := dfMerged_robot_fields hm
    have hlag : r.ln_robots_lag1 = a.ln_robots_lag1 := by
      rw [show r.ln_robots_lag1 = m.ln_robots_lag1 by rw [hme], a5]
    refine ⟨Val.isNum_of_notna_ne_ninf n1 (e1 ▸ lnClip_ne_ninf lnQ _), ?_,
      Val.isNum_of_notna_ne_ninf n3 (e2 ▸ lnClip_ne_ninf lnQ _),
      Val.isNum_of_notna_ne_ninf n4 (e3 ▸ lnClip_ne_ninf lnQ _)⟩
    exact Val.isNum_of_notna_ne_ninf n2 (hlag ▸ ifrPanel_lag_ne_ninf lnQ ifr a ha)
  · rintro c k y ⟨j, s, hj, hsc, hsi, hsy, hstock⟩ r hr ⟨hc, hk, hy⟩
    obtain ⟨hrAD, hreq⟩ := mem_assemble hr
    unfold requiredNotna at hreq
    simp only [Bool.and_eq_true] at hreq
    have hlagnotna : r.ln_robots_lag1.notna = true := hreq.1.1.2
    obtain ⟨⟨m, hm, hme⟩, _⟩ :=
      assembleDerived_fields lnQ ifr klems gdp une ict r hrAD
    obtain ⟨a, ha, a1, a2, a3, _, a5⟩ := dfMerged_robot_fields hm
    have hac : a.country = c := by
      rw [← a1, show m.country = r.country by rw [hme], hc]
    have hak : a.industry = k := by
      rw [← a2, show m.industry = r.industry by rw [hme], hk]
    have hay : a.year = y := by
      rw [← a3, show m.year = r.year by rw [hme], hy]
    have hlag : r.ln_robots_lag1 = a.ln_robots_lag1 := by
      rw [show r.ln_robots_lag1 = m.ln_robots_lag1 by rw [hme], a5]
    -- the lag of `a` is the ln of the present previous-year row, which is null
    have haL : a ∈ ifrLagged lnQ ifr := List.mem_of_mem_filter ha
    obtain ⟨i, hi⟩ := List.mem_iff_getElem?.mp haL
    have hsmem : s ∈ ifrWithLn lnQ ifr := List.mem_iff_getElem?.mpr ⟨j, hj⟩
    have hsna : s.ln_robots = Val.na := by
      rw [ifrWithLn_ln_eq lnQ ifr s hsmem]
      rcases hstock with h | h
      · rw [h]; rfl
      · rw [h]; simp [lnRobots, replaceZeroNa, npLog]
    have hkey : lKey s = (a.country, a.industry) := by
      show (s.country, s.industry) = (a.country, a.industry)
      rw [hsc, hsi, hac, hak]
    have hyear : s.year + 1 = a.year := by
      rw [hsy, hay]
      omega
    have := (ifrLagged_lag_spec lnQ ifr hsort i a hi).2.1 j s hj hkey hyear
    rw [hsna] at this
    rw [hlag, this] at hlagnotna
    simp [Val.notna] at hlagnotna

/-- Witness for C10: on the fixture pipeline run, the 1996 output row
has non-null, finite values in all four required columns. -/
theorem c10_required_amended_witness :
    fixRow1996 ∈ assemble idQ fixIfrA fixKlemsA fixGdpA fixUneA fixIctA ∧
    fixRow1996.ln_hours.isNum = true ∧ fixRow1996.ln_robots_lag1.isNum = true ∧
    fixRow1996.ln_va.isNum = true ∧ fixRow1996.ln_cap.isNum = true := by
  have hmem : fixRow1996 ∈ assemble idQ fixIfrA fixKlemsA fixGdpA fixUneA fixIctA := by
    rw [fixA_assemble]
    decide
  have h := (c10_required_amended idQ fixIfrA fixKlemsA fixGdpA fixUneA fixIctA
    (by decide)).1 fixRow1996 hmem
  exact ⟨hmem, h.1, h.2.1, h.2.2.1, h.2.2.2⟩

/-- Counterexample for C10 as stated: the entity ("AT", "28") is observed
in 1994 and 1996, not in 1995.  The 1996 entity-year's previous-year
(1995) robots value is missing, so the claim says the 1996 row is absent
from the output panel; but the positional shift carries the 1994 log over
the gap, so the cleaned output contains the 1996 row with lag
`ln_robots`(1994) = `num 5` (evaluated with `lnQ := idQ`). -/
theorem c10_required_counterexample :
    fixIfrGap.map (fun r => r.year) = [(1994 : Int), 1996] ∧
    (assemble idQ fixIfrGap fixKlemsGap [] [] []).map
      (fun r => (r.country, r.year, r.ln_robots_lag1)) =
      [("AT", (1996 : Int), Val.num 5)] ∧ Val.num 5 ≠ Val.na := by
  refine ⟨by decide, ?_, by decide⟩
  decide

theorem length_le_flatMap {α β : Type} (f : α → List β) (l : List α)
    (h : ∀ a, 1 ≤ (f a).length) : l.length ≤ (l.flatMap f).length := by
  induction l with
  | nil => simp
  | cons a as ih =>
    rw [List.flatMap_cons, List.length_append, List.length_cons]
    have := h a
    omega

theorem one_le_joinGdpRow (gdp : List GdpRow) (r : MRow) :
    1 ≤ (joinGdpRow gdp r).length := by
  unfold joinGdpRow
  split
  · simp
  · rename_i heq
    simp only [List.length_map]
    exact List.length_pos.mpr (fun h => heq h)

theorem one_le_joinUneRow (une : List UneRow) (r : MRow) :
    1 ≤ (joinUneRow une r).length := by
  unfold joinUneRow
  split
  · simp
  · rename_i heq
    simp only [List.length_map]
    exact List.length_pos.mpr (fun h => heq h)

theorem one_le_joinIctRow (ict : List IctRow) (r : MRow) :
    1 ≤ (joinIctRow ict r).length := by
  unfold joinIctRow
  split
  · simp
  · rename_i heq
    simp only [List.length_map]
    exact List.length_pos.mpr (fun h => heq h)

/-- Claim C3.  The country-level left joins (GDP, unemployment,
institutional baselines) never remove a row of the industry-level panel;
and on the 12-row fixture (2 countries x 2 industries x 3 years, with
institutional data only for AT) the institutional left join keeps all 12
rows, leaves every other column unchanged, and the institutional columns
are null exactly on the rows of the country (BE) lacking institutional
data. -/
theorem c3_left_join_preserves_rows :
    (∀ (df : List MRow) (gdp : List GdpRow), df.length ≤ (joinGdp df gdp).length) ∧
    (∀ (df : List MRow) (une : List UneRow), df.length ≤ (joinUne df une).length) ∧
    (∀ (df : List MRow) (ict : List IctRow), df.length ≤ (joinIct df ict).length) ∧
    (joinIct c3Fix12 c3Ict).length = 12 ∧
    (joinIct c3Fix12 c3Ict).map stripIct = c3Fix12.map stripIct ∧
    (∀ r ∈ joinIct c3Fix12 c3Ict,
      ((r.AdjCov = Val.na ∧ r.Coord = Val.na) ↔ r.country = "BE") ∧
      (r.country = "AT" → r.AdjCov = Val.num 70 ∧ r.Coord = Val.num 4)) := by
  refine ⟨?_, ?_, ?_, by decide, by decide, by decide⟩
  · intro df gdp
    exact length_le_flatMap _ df (one_le_joinGdpRow gdp)
  · intro df une
    exact length_le_flatMap _ df (one_le_joinUneRow une)
  · intro df ict
    exact length_le_flatMap _ df (one_le_joinIctRow ict)

/-- Witness for C3: the first fixture row survives the institutional
left join with its institutional columns filled from the AT baseline. -/
theorem c3_left_join_preserves_rows_witness :
    c3row0 ∈ joinIct c3Fix12 c3Ict ∧ c3row0.country = "AT" ∧
    c3row0.AdjCov = Val.num 70 ∧ c3row0.Coord = Val.num 4 := by
  have hmem : c3row0 ∈ joinIct c3Fix12 c3Ict := by decide
  have h := (c3_left_join_preserves_rows.2.2.2.2.2 c3row0 hmem).2 (by decide)
  exact ⟨hmem, by decide, h.1, h.2⟩

theorem mem_dedupeByGo {α κ : Type} [DecidableEq κ] (key : α → κ) :
    ∀ (rows : List α) (seen : List κ) (x : α),
      x ∈ dedupeByGo key seen rows → x ∈ rows := by
  intro rows
  induction rows with
  | nil => intro seen x h; simp [dedupeByGo] at h
  | cons r rs ih =>
    intro seen x h
    unfold dedupeByGo at h
    split at h
    · exact List.mem_cons_of_mem _ (ih seen x h)
    · rcases List.mem_cons.mp h with rfl | h2
      · exact List.mem_cons_self _ _
      · exact List.mem_cons_of_mem _ (ih _ x h2)

theorem mem_dedupeBy {α κ : Type} [DecidableEq κ] (key : α → κ)
    {rows : List α} {x : α} (h : x ∈ dedupeBy key rows) : x ∈ rows :=
  mem_dedupeByGo key rows [] x h

theorem mem_controlsDrop {full df : List PanelRow} {r : PanelRow}
    (h : r ∈ controlsDrop full df) : r ∈ df := by
  unfold controlsDrop at h
  split_ifs at h <;>
    first
    | exact List.mem_of_mem_filter (List.mem_of_mem_filter
        (List.mem_of_mem_filter (List.mem_of_mem_filter h)))
    | exact List.mem_of_mem_filter (List.mem_of_mem_filter
        (List.mem_of_mem_filter h))
    | exact List.mem_of_mem_filter (List.mem_of_mem_filter h)

theorem mem_eq5Prepared {full : List PanelRow} {r : PanelRow}
    (h : r ∈ eq5Prepared full) :
    r ∈ full ∧ r.adjcov_centered.notna = true := by
  simp only [eq5Prepared] at h
  have h0 := List.of_mem_filter h
  have h1 := List.mem_of_mem_filter h
  have h2 := mem_controlsDrop (mem_dedupeBy _ h1)
  exact ⟨List.mem_of_mem_filter (mem_dedupeBy _ h2), h0⟩

theorem mem_eq5Industry {full : List PanelRow} {ind : String} {r : PanelRow}
    (h : r ∈ eq5Industry full ind) :
    r ∈ full ∧ r.adjcov_centered.notna = true ∧ r.nace = ind := by
  unfold eq5Industry at h
  have h2 := mem_eq5Prepared (List.mem_of_mem_filter h)
  have h3 := List.of_mem_filter h
  exact ⟨h2.1, h2.2, of_decide_eq_true h3⟩

theorem Val.sub_shape (a b : Val) :
    Val.sub a b = Val.na ∨ ∃ q, Val.sub a b = Val.num q := by
  cases a <;> cases b <;> simp [Val.sub]

theorem adjcovCVals_length {rows : List PanelRow}
    (h : ∀ r ∈ rows, ∃ q, r.adjcov_centered = Val.num q) :
    (adjcovCVals rows).length = rows.length := by
  unfold adjcovCVals
  induction rows with
  | nil => rfl
  | cons r rs ih =>
    obtain ⟨q, hq⟩ := h r (List.mem_cons_self _ _)
    have h2 := ih (fun x hx => h x (List.mem_cons_of_mem _ hx))
    simp only [List.filterMap_cons, hq, Val.toNum?, List.length_cons] at h2 ⊢
    omega

theorem runIndustries_cons (g : String × List PanelRow)
    (gs : List (String × List PanelRow)) :
    runIndustries (g :: gs) =
      match gateReason g.2 with
      | none => (g.1 :: (runIndustries gs).1, (runIndustries gs).2)
      | some reason => ((runIndustries gs).1, (g.1, reason) :: (runIndustries gs).2) := by
  unfold runIndustries
  rw [List.foldr_cons]

theorem runIndustries_records (groups : List (String × List PanelRow))
    (ind : String) (rs : List PanelRow) (hmem : (ind, rs) ∈ groups) :
    (gateReason rs = none → ind ∈ (runIndustries groups).1) ∧
    (∀ reason, gateReason rs = some reason →
      (ind, reason) ∈ (runIndustries groups).2) := by
  induction groups with
  | nil => simp at hmem
  | cons g gs ih =>
    rw [runIndustries_cons]
    rcases List.mem_cons.mp hmem with rfl | h2
    · constructor
      · intro hg
        rw [hg]
        exact List.mem_cons_self _ _
      · intro reason hg
        rw [hg]
        exact List.mem_cons_self _ _
    · have := ih h2
      constructor
      · intro hg
        cases hr : gateReason g.2 <;> simp only []
        · exact List.mem_cons_of_mem _ (this.1 hg)
        · exact this.1 hg
      · intro reason hg
        cases hr : gateReason g.2 <;> simp only []
        · exact this.2 reason hg
        · exact List.mem_cons_of_mem _ (this.2 reason hg)

theorem gateReason_none_iff (rows : List PanelRow)
    (hsh : ∀ r ∈ rows, ∃ q, r.adjcov_centered = Val.num q) :
    gateReason rows = none ↔
      (MIN_COUNTRIES ≤ nCountries rows ∧ MIN_OBS ≤ rows.length ∧
       1/10^20 ≤ sampleVar (adjcovCVals rows)) := by
  have hlen : (adjcovCVals rows).length = rows.length := adjcovCVals_length hsh
  unfold gateReason MIN_COUNTRIES MIN_OBS
  constructor
  · intro h
    have h1 : ¬ (nCountries rows < 5) := by
      intro hc
      rw [if_pos hc] at h
      simp at h
    rw [if_neg h1] at h
    have h2 : ¬ (rows.length < 50) := by
      intro hc
      rw [if_pos hc] at h
      simp at h
    rw [if_neg h2] at h
    have h3 : ¬ (stdLtEps (adjcovCVals rows) = true) := by
      intro hc
      rw [if_pos hc] at h
      simp at h
    refine ⟨by omega, by omega, ?_⟩
    unfold stdLtEps at h3
    rw [hlen] at h3
    simp only [Bool.and_eq_true, decide_eq_true_eq, not_and, not_lt] at h3
    exact h3 (by omega)
  · rintro ⟨g1, g2, g3⟩
    rw [if_neg (by omega), if_neg (by omega), if_neg ?_]
    unfold stdLtEps
    rw [hlen]
    simp only [Bool.and_eq_true, decide_eq_true_eq, not_and, not_lt]
    intro _
    exact g3

set_option maxRecDepth 2000 in
/-- Claim C4 (amended).  A candidate per-industry subgroup of the
equation-5 model is admitted iff its distinct-country count is at least
5 (`MIN_COUNTRIES`), its row count is at least 50 (`MIN_OBS`), and the
sample standard deviation of the centered coverage moderator is AT LEAST
1e-10 (equivalently, its sample variance is at least 1e-20) — the code
skips only when `std < 1e-10`, so a subgroup whose standard deviation
equals 1e-10 exactly is admitted, contrary to the claim's strict
"exceeds" (see the counterexample).  A subgroup with 4 distinct
countries is excluded, one with 5 is included (other conditions
satisfied), and every excluded subgroup is recorded with its reason
string, never silently dropped. -/
theorem c4_usability_gate_amended :
    (∀ (lnQ : ℚ → ℚ) (ifr : List IfrRow) (klems : List KlemsRow)
        (gdp : List GdpRow) (une : List UneRow) (ict : List IctRow) (ind : String),
      gateReason (eq5Industry (assemble lnQ ifr klems gdp une ict) ind) = none ↔
        (MIN_COUNTRIES ≤ nCountries (eq5Industry (assemble lnQ ifr klems gdp une ict) ind) ∧
         MIN_OBS ≤ (eq5Industry (assemble lnQ ifr klems gdp une ict) ind).length ∧
         1/10^20 ≤ sampleVar (adjcovCVals (eq5Industry (assemble lnQ ifr klems gdp une ict) ind)))) ∧
    gateReason c4Fix4 = some "only 4 countries" ∧
    gateReason c4Fix5 = none ∧
    (∀ (groups : List (String × List PanelRow)) (ind : String) (rs : List PanelRow),
      (ind, rs) ∈ groups →
        (gateReason rs = none → ind ∈ (runIndustries groups).1) ∧
        (∀ reason, gateReason rs = some reason →
          (ind, reason) ∈ (runIndustries groups).2)) := by
  refine ⟨?_, by decide, by decide, runIndustries_records⟩
  intro lnQ ifr klems gdp une ict ind
  apply gateReason_none_iff
  intro r hr
  obtain ⟨hfull, hnotna, _⟩ := mem_eq5Industry hr
  obtain ⟨hAD, _⟩ := mem_assemble hfull
  obtain ⟨_, _, _, _, _, _, _, hc, _⟩ :=
    assembleDerived_fields lnQ ifr klems gdp une ict r hAD
  rcases Val.sub_shape r.adjcov (adjMeanOf lnQ (dfMerged lnQ ifr klems gdp une ict)) with
    h0 | ⟨q, h0⟩
  · rw [hc, h0] at hnotna
    simp [Val.notna] at hnotna
  · exact ⟨q, by rw [hc, h0]⟩

set_option maxRecDepth 2000 in
/-- Witness for C4: a subgroup with exactly 4 distinct countries is
skipped and recorded with its reason string; the same subgroup with 5
countries passes the gate. -/
theorem c4_usability_gate_amended_witness :
    ("C28", "only 4 countries") ∈ (runIndustries [("C28", c4Fix4)]).2 ∧
    gateReason c4Fix5 = none := by
  have h := c4_usability_gate_amended
  exact ⟨(h.2.2.2 [("C28", c4Fix4)] "C28" c4Fix4 (by decide)).2
    "only 4 countries" h.2.1, h.2.2.1⟩

set_option maxRecDepth 2000 in
/-- Counterexample for C4 as stated: a subgroup of 51 rows over 5
countries whose centered moderator has sample variance exactly 1e-20 —
i.e. sample standard deviation exactly 1e-10, which does NOT exceed
1e-10 — is nonetheless admitted by the gate (the code only skips when
`std < 1e-10`). -/
theorem c4_usability_gate_counterexample :
    nCountries c4FixBoundary = 5 ∧ c4FixBoundary.length = 51 ∧
    sampleVar (adjcovCVals c4FixBoundary) = 1/10^20 ∧
    ¬ ((1 : ℚ)/10^20 < 1/10^20) ∧
    gateReason c4FixBoundary = none := by
  refine ⟨by decide, by decide, by decide, by norm_num, by decide⟩

/-- Claim C5.  The crosswalk aggregation computes the weighted average
sum(w*v)/sum(w) over all detailed entries mapping to the canonical
bucket, falling back to the unweighted mean exactly when the weights sum
to zero; on the fixture, values (10, w=1) and (20, w=3) aggregate to
17.5, and to 15 when both weights are zero. -/
theorem c5_weighted_crosswalk :
    (∀ g : List (ℚ × ℚ), (g.map Prod.snd).sum ≠ 0 →
        wavg g = (List.zipWith (fun a b => a * b) (g.map Prod.fst)
          (g.map Prod.snd)).sum / (g.map Prod.snd).sum) ∧
    (∀ g : List (ℚ × ℚ), (g.map Prod.snd).sum = 0 →
        wavg g = (g.map Prod.fst).sum / ((g.map Prod.fst).length : ℚ)) ∧
    aggregateNace [(26, 10, 1), (26, 20, 3), (27, 99, 5)] 26 = 35/2 ∧
    aggregateNace [(26, 10, 0), (26, 20, 0)] 26 = 15 := by
  refine ⟨?_, ?_, by decide, by decide⟩
  · intro g h
    simp only [wavg]
    rw [if_neg h]
  · intro g h
    simp only [wavg]
    rw [if_pos h]

/-- Witness for C5: on the fixture group [(10, 1), (20, 3)] the weights
sum to 4, which is nonzero, and the aggregate equals the weighted
average formula (which evaluates to 17.5). -/
theorem c5_weighted_crosswalk_witness :
    (([((10 : ℚ), (1 : ℚ)), (20, 3)].map Prod.snd).sum ≠ 0) ∧
    wavg [((10 : ℚ), (1 : ℚ)), (20, 3)] =
      (List.zipWith (fun a b => a * b)
        ([((10 : ℚ), (1 : ℚ)), (20, 3)].map Prod.fst)
        ([((10 : ℚ), (1 : ℚ)), (20, 3)].map Prod.snd)).sum /
      (([((10 : ℚ), (1 : ℚ)), (20, 3)].map Prod.snd).sum) ∧
    wavg [((10 : ℚ), (1 : ℚ)), (20, 3)] = 35/2 := by
  have hne : (([((10 : ℚ), (1 : ℚ)), (20, 3)].map Prod.snd).sum ≠ 0) := by decide
  exact ⟨hne, c5_weighted_crosswalk.1 _ hne, by decide⟩

/-- Claim C6 (amended).  The datacheck loader `load_safe` returns the
explicit absent sentinel `None` (never an exception) on file-not-found
or parse failure; but the main cleaning pipeline's loader `load_csv`
RAISES `FileNotFoundError` on a missing file, so a missing source aborts
the cleaning run rather than degrading it (see the counterexample). -/
theorem c6_source_loader_amended :
    (∀ (α : Type) (r : ReadResult α),
        (load_safe r = none ↔
          (r = ReadResult.missing ∨ r = ReadResult.parseError)) ∧
        (∀ a : α, load_safe r = some a ↔ r = ReadResult.ok a) ∧
        (r = ReadResult.missing →
          load_csv r = Except.error "FileNotFoundError")) ∧
    (∀ (α : Type) (k c g1 g2 u : ReadResult α),
        cleaningLoadAll ReadResult.missing k c g1 g2 u =
          Except.error "FileNotFoundError") := by
  constructor
  · intro α r
    refine ⟨?_, ?_, ?_⟩
    · cases r <;> simp [load_safe]
    · intro a
      cases r <;> simp [load_safe]
    · intro h
      rw [h]
      rfl
  · intro α k c g1 g2 u
    rfl

/-- Witness for C6: a parse failure yields the `None` sentinel from
`load_safe`, and a missing IFR source makes the whole cleaning load
sequence abort with `FileNotFoundError`. -/
theorem c6_source_loader_amended_witness :
    load_safe (ReadResult.parseError : ReadResult Unit) = none ∧
    load_csv (ReadResult.missing : ReadResult Unit) =
      Except.error "FileNotFoundError" ∧
    cleaningLoadAll (ReadResult.missing : ReadResult Unit)
      (.ok ()) (.ok ()) (.ok ()) (.ok ()) (.ok ()) =
      Except.error "FileNotFoundError" := by
  have h := c6_source_loader_amended
  exact ⟨((h.1 Unit ReadResult.parseError).1).mpr (Or.inr rfl),
    (h.1 Unit ReadResult.missing).2.2 rfl,
    h.2 Unit (.ok ()) (.ok ()) (.ok ()) (.ok ()) (.ok ())⟩

/-- Counterexample for C6 as stated: the claim says every configured
source is loaded through a loader that returns an absent sentinel
rather than raising, so the main pipeline never crashes on a missing
source; but `load_csv` of `2-cleaning-data.py` raises
`FileNotFoundError`, and the cleaning load sequence therefore aborts
when a source file is missing. -/
theorem c6_source_loader_counterexample :
    load_csv (ReadResult.missing : ReadResult Unit) =
      Except.error "FileNotFoundError" ∧
    (Except.error "FileNotFoundError" ≠ (Except.ok () : Except String Unit)) ∧
    cleaningLoadAll (ReadResult.missing : ReadResult Unit)
      (.ok ()) (.ok ()) (.ok ()) (.ok ()) (.ok ()) =
      Except.error "FileNotFoundError" := by
  refine ⟨rfl, ?_, rfl⟩
  intro h
  cases h

theorem alookup_mem {β : Type} {l : List (String × β)} {k : String} {v : β}
    (h : alookup l k = some v) : (k, v) ∈ l := by
  unfold alookup at h
  cases hf : l.find? (fun p => decide (p.1 = k)) with
  | none => rw [hf] at h; simp at h
  | some p =>
    rw [hf] at h
    simp only [Option.map_some', Option.some.injEq] at h
    have hm := List.mem_of_find?_eq_some hf
    have hp := List.find?_some hf
    simp only [decide_eq_true_eq] at hp
    have hpe : p = (k, v) := by
      cases p
      simp_all
    rw [← hpe]
    exact hm

/-- Claim C7 (amended).  The name and ISO3 alias tables are mutually
consistent and idempotent against the ISO2 pass-through: every name
alias and every ISO3 alias maps to a code that the ISO2 normaliser
accepts unchanged, and in particular `GRC` and `Greece` both normalise
to `EL`.  But a raw ISO2 token is passed through UNCHANGED — there is no
EL/GR reconciliation — so `GR` normalises to `GR`, a different canonical
key from `EL` (see the counterexample); no name or ISO3 alias ever
produces the key `GR`. -/
theorem c7_normalizer_amended :
    (∀ t c, normIso2 t = some c → c = t) ∧
    (∀ t, normKlemsGeo t = normIso2 t) ∧
    (∀ p ∈ eurostatGeoToIso2, normName p.1 = some p.2 ∧ normIso2 p.2 = some p.2) ∧
    (∀ p ∈ iso3ToIso2, normIso3 p.1 = some p.2 ∧ normIso2 p.2 = some p.2) ∧
    normIso3 "GRC" = some "EL" ∧ normName "Greece" = some "EL" ∧
    normIso2 "EL" = some "EL" ∧ normIso2 "GR" = some "GR" ∧
    (∀ t, normName t ≠ some "GR") ∧
    (∀ t, normIso3 t ≠ some "GR") := by
  refine ⟨?_, ?_, by decide, by decide, by decide, by decide, by decide,
    by decide, ?_, ?_⟩
  · intro t c h
    unfold normIso2 at h
    split at h
    · injection h with h2
      exact h2.symm
    · simp at h
  · intro t
    by_cases hEl : t = "EL"
    · subst hEl
      decide
    · simp [normKlemsGeo, normIso2, hEl]
  · intro t h
    unfold normName at h
    cases ha : alookup eurostatGeoToIso2 t with
    | none => rw [ha] at h; simp at h
    | some c =>
      rw [ha] at h
      simp only [Option.some_bind] at h
      split at h
      · injection h with h2
        subst h2
        have : ∀ p ∈ eurostatGeoToIso2, p.2 ≠ "GR" := by decide
        exact this _ (alookup_mem ha) rfl
      · simp at h
  · intro t h
    unfold normIso3 at h
    cases ha : alookup iso3ToIso2 t with
    | none => rw [ha] at h; simp at h
    | some c =>
      rw [ha] at h
      simp only [Option.some_bind] at h
      split at h
      · injection h with h2
        subst h2
        have : ∀ p ∈ iso3ToIso2, p.2 ≠ "GR" := by decide
        exact this _ (alookup_mem ha) rfl
      · simp at h

/-- Witness for C7: the ISO2 normaliser passes `DE` through unchanged,
and no ISO3 token can produce the canonical key `GR`. -/
theorem c7_normalizer_amended_witness :
    normIso2 "DE" = some "DE" ∧ ("DE" : String) = "DE" ∧
    normIso3 "GRC" ≠ some "GR" := by
  have h := c7_normalizer_amended
  exact ⟨by decide, h.1 "DE" "DE" (by decide),
    h.2.2.2.2.2.2.2.2.2 "GRC"⟩

/-- Counterexample for C7 as stated: the claim says `EL` and `GR` both
normalise to one and the same canonical Greece code; but the ISO2
pass-through sends `GR` to `GR` and `EL` to `EL`, two different
canonical keys, while the ISO3 and name tables send `GRC` and `Greece`
to `EL`.  Greece rows from a source spelled `GR` therefore land on a
different canonical key than rows from sources spelled `EL`. -/
theorem c7_normalizer_counterexample :
    normIso2 "GR" = some "GR" ∧ normIso2 "EL" = some "EL" ∧
    normIso3 "GRC" = some "EL" ∧ normName "Greece" = some "EL" ∧
    ("GR" : String) ≠ "EL" := by
  decide

/-- Claim C8.  The centering constant of `adjcov_centered` is the mean
of the `adjcov` column over the full assembled panel before the
required-variable `dropna` (line 163 precedes line 173), and that same
constant is the one in effect in every equation-5 per-industry subgroup:
each subgroup row's `adjcov_centered` equals its `adjcov` minus the
full-panel mean, not a mean recomputed on the filtered subset. -/
theorem c8_centering_constant (lnQ : ℚ → ℚ) (ifr : List IfrRow)
    (klems : List KlemsRow) (gdp : List GdpRow) (une : List UneRow)
    (ict : List IctRow) (ind : String) :
    ∀ r ∈ eq5Industry (assemble lnQ ifr klems gdp une ict) ind,
      r.adjcov_centered = Val.sub r.adjcov
        (meanVal ((assembleDerived lnQ ifr klems gdp une ict).map
          (fun p => p.adjcov))) := by
  intro r hr
  obtain ⟨hfull, _, _⟩ := mem_eq5Industry hr
  obtain ⟨hAD, _⟩ := mem_assemble hfull
  obtain ⟨_, _, _, _, _, _, _, hc, _⟩ :=
    assembleDerived_fields lnQ ifr klems gdp une ict r hAD
  rw [meanVal_assembleDerived]
  exact hc

/-- Witness for C8: on the fixture pipeline the 1995 row of the C28
subgroup is centered against the full-panel mean (70), giving 0. -/
theorem c8_centering_constant_witness :
    fixRow1995 ∈ eq5Industry (assemble idQ fixIfrA fixKlemsA fixGdpA fixUneA fixIctA) "C28" ∧
    fixRow1995.adjcov_centered = Val.sub fixRow1995.adjcov
      (meanVal ((assembleDerived idQ fixIfrA fixKlemsA fixGdpA fixUneA fixIctA).map
        (fun p => p.adjcov))) ∧
    fixRow1995.adjcov_centered = Val.num 0 := by
  have hmem : fixRow1995 ∈
      eq5Industry (assemble idQ fixIfrA fixKlemsA fixGdpA fixUneA fixIctA) "C28" := by
    rw [fixA_eq5]
    decide
  exact ⟨hmem,
    c8_centering_constant idQ fixIfrA fixKlemsA fixGdpA fixUneA fixIctA "C28"
      fixRow1995 hmem, by decide⟩

theorem crossPanel_length (e : List ExpRow) (w : List WRow) :
    (crossPanel e w).length = e.length * w.length := by
  unfold crossPanel
  induction e with
  | nil => simp
  | cons a as ih =>
    rw [List.flatMap_cons, List.length_append, List.length_map,
      List.length_cons, ih]
    ring

/-- Claim C9.  The shift-share construction is the full Cartesian
product: the panel has exactly |exposure| * |weights| rows, every row is
the pairing of one (country, year) exposure row with one industry weight
row with exposure = robot_stock * auto_weight, every such pairing
occurs, and the 2-country x 3-year x 4-industry fixture yields exactly
24 rows. -/
theorem c9_shift_share_cartesian :
    (∀ (e : List ExpRow) (w : List WRow),
        (crossPanel e w).length = e.length * w.length) ∧
    (∀ (e : List ExpRow) (w : List WRow) (r : SSRow), r ∈ crossPanel e w →
        r.robot_exposure = r.robot_stock * r.auto_weight ∧
        ∃ a ∈ e, ∃ b ∈ w, r = ssMk a b) ∧
    (∀ (e : List ExpRow) (w : List WRow) (a : ExpRow) (b : WRow),
        a ∈ e → b ∈ w → ssMk a b ∈ crossPanel e w) ∧
    c9Exp.length = 6 ∧ c9W.length = 4 ∧
    (crossPanel c9Exp c9W).length = 24 := by
  refine ⟨crossPanel_length, ?_, ?_, by decide, by decide, by decide⟩
  · intro e w r hr
    unfold crossPanel at hr
    rw [List.mem_flatMap] at hr
    obtain ⟨a, ha, hmem⟩ := hr
    rw [List.mem_map] at hmem
    obtain ⟨b, hb, rfl⟩ := hmem
    exact ⟨rfl, a, ha, b, hb, rfl⟩
  · intro e w a b ha hb
    unfold crossPanel
    rw [List.mem_flatMap]
    exact ⟨a, ha, List.mem_map.mpr ⟨b, hb, rfl⟩⟩

/-- Witness for C9: the pairing of the first exposure row with the first
weight row is in the panel, and its exposure is the product of its
robot stock and weight. -/
theorem c9_shift_share_cartesian_witness :
    ssMk ⟨"DE", 2004, 10⟩ ⟨"i1", 1⟩ ∈ crossPanel c9Exp c9W ∧
    (ssMk ⟨"DE", 2004, 10⟩ ⟨"i1", 1⟩).robot_exposure =
      (ssMk ⟨"DE", 2004, 10⟩ ⟨"i1", 1⟩).robot_stock *
      (ssMk ⟨"DE", 2004, 10⟩ ⟨"i1", 1⟩).auto_weight := by
  have h := c9_shift_share_cartesian
  have hmem : ssMk ⟨"DE", 2004, 10⟩ ⟨"i1", 1⟩ ∈ crossPanel c9Exp c9W :=
    h.2.2.1 c9Exp c9W ⟨"DE", 2004, 10⟩ ⟨"i1", 1⟩ (by decide) (by decide)
  exact ⟨hmem, (h.2.1 c9Exp c9W _ hmem).1⟩
